import Mathlib

/-!
Verification of the session runtime of the `lean-lsp` supervisor.

This file shallowly embeds the parts of the Rust sources that the verified
properties are about:

* the LSP framing codec (`src/lean_server.rs`: `LeanServerStdout::next_message`,
  `LeanServerProcess::write_to_process`, and `Utils::substr_interval` from
  `src/utils.rs`), modelled over byte lists;
* the session actor (`src/session_runner.rs`): the open-files version map, the
  pending-request table, command handling, response routing and the run loop;
* project-directory resolution (`SessionRunner::project_dirpath`);
* the session-set actor (`src/session_set.rs`, `src/session_set_runner.rs`):
  implicit-session resolution and the run loop.

Rust `HashMap`s are modelled as association lists with replace-on-insert and
delete-on-remove semantics; channels and the async scheduler are modelled by
explicit event traces; fallible operations return `Except`.
-/

namespace LeanLsp


/-! ## Association-list model of `HashMap`

Insertion replaces any previous binding of the key; removal deletes it.  The
iteration order of a Rust `HashMap` is unspecified, so nothing below depends on
the order of entries beyond the first-value access used by `get_session`. -/

def lookupA [DecidableEq α] : List (α × β) → α → Option β
  | [], _ => none
  | (k, v) :: rest, key => if key = k then some v else lookupA rest key

def removeA [DecidableEq α] (m : List (α × β)) (key : α) : List (α × β) :=
  m.filter (fun p => decide (p.1 ≠ key))

def insertA [DecidableEq α] (m : List (α × β)) (key : α) (val : β) : List (α × β) :=
  (key, val) :: removeA m key

/-- Error kinds of the runtime (the spec's error taxonomy, section 7; the
source uses `anyhow` errors whose messages distinguish these cases). -/
inductive Err where
  | alreadyOpen
  | fileNotOpen
  | noManifest
  | ambiguousSession
  | unknownSession
  | channelClosed
  | oneshotClosed
  | decode
  | ioFailure
deriving DecidableEq, Repr

/-! ## LSP framing codec

Bytes are modelled as natural numbers (`List Nat`).  The decoder operates on
the full byte sequence ultimately readable from the child's stdout: the
`read_buf` loop of `LeanServerStdout::next_message` only ever appends bytes to
the growable buffer, so the first occurrence of the header separator (and the
data that follows it) is the same whether the bytes arrive in one chunk or
many.  Running out of bytes (`read_buf` hitting end of stream) and malformed
headers are both modelled as `none`. -/

/-- First index at which `query` occurs as a contiguous substring of `l`,
translated from `Utils::substr_interval`'s
`bytes.windows(query_len).position(predicate)` (`src/utils.rs`). -/
def substrPos (l q : List Nat) : Option Nat :=
  if q.length ≤ l.length then
    if l.take q.length = q then some 0
    else
      match l with
      | [] => none
      | _ :: t => (substrPos t q).map (fun i => i + 1)
  else none

/-- `Utils::substr_interval` (`src/utils.rs` lines 163-174): the begin/end
indices of the first occurrence of `query` in `self`. -/
def substr_interval (l q : List Nat) : Option (Nat × Nat) :=
  (substrPos l q).map (fun b => (b, b + q.length))

/-- The four-byte header separator `\r\n\r\n` (`LeanServerStdout::SEPARATOR`). -/
def SEPARATOR : List Nat := [13, 10, 13, 10]

/-- ASCII bytes of a string (all literals used by the codec are ASCII). -/
def strBytes (s : String) : List Nat := s.data.map Char.toNat

/-- Decimal digits of `n`, least significant first (`[]` for `0`).  The fuel
argument (always at least `n`) makes the recursion structural so that the
kernel can evaluate the definition. -/
def digitsLEAux (fuel n : Nat) : List Nat :=
  match fuel with
  | 0 => []
  | fuel + 1 => if n = 0 then [] else (48 + n % 10) :: digitsLEAux fuel (n / 10)

def digitsLE (n : Nat) : List Nat := digitsLEAux n n

/-- ASCII bytes of the canonical decimal representation of `n`, as produced by
Rust's `usize::to_string().into_bytes()`. -/
def natDigits (n : Nat) : List Nat :=
  if n = 0 then [48] else (digitsLE n).reverse

def isDigitByte (c : Nat) : Bool := 48 ≤ c && c ≤ 57

def digitsToNat (l : List Nat) : Nat :=
  l.foldl (fun a c => a * 10 + (c - 48)) 0

/-- Model of `str::parse::<usize>` on a byte slice (composed with the
`as_utf8` check of the source): an optional leading `+` followed by a
non-empty run of decimal digits.  Overflow of `usize` is not modelled. -/
def parseAsciiNat (l : List Nat) : Option Nat :=
  let l2 := if l.head? = some 43 then l.tail else l
  if l2 ≠ [] ∧ l2.all isDigitByte then some (digitsToNat l2) else none

/-- `LeanServerStdout::next_message` (`src/lean_server.rs` lines 35-64) over
the full inbound byte sequence: find the first `\r\n\r\n`; inside the prefix
before it, find the first space byte and parse everything between the space
and the separator as the decimal content length; then return exactly that many
bytes after the separator together with the bytes left in the buffer. -/
def next_message (stream : List Nat) : Option (List Nat × List Nat) :=
  match substr_interval stream SEPARATOR with
  | none => none
  | some (separator_begin_idx, separator_end_idx) =>
    match substr_interval (stream.take separator_begin_idx) [32] with
    | none => none
    | some (_space_begin_idx, space_end_idx) =>
      match parseAsciiNat ((stream.take separator_begin_idx).drop space_end_idx) with
      | none => none
      | some content_length =>
        let rest := stream.drop separator_end_idx
        if content_length ≤ rest.length then
          some (rest.take content_length, rest.drop content_length)
        else none

/-- `LeanServerProcess::write_to_process` (`src/lean_server.rs` lines 109-119):
the exact byte sequence written to the child's stdin for a JSON byte string. -/
def write_to_process (json_byte_str : List Nat) : List Nat :=
  strBytes "Content-Length: " ++ natDigits json_byte_str.length ++ SEPARATOR ++ json_byte_str

/-! ### The decoder of the specification

For comparison with the decoder actually implemented, `spec_decode` follows
the words of the specification (section 4.1): split the bytes before the blank
line into header lines, honor the `Content-Length` header matching its name
case-insensitively, ignore every other header, and return exactly
`Content-Length` bytes after the separator. -/

/-- Split a byte sequence at every `\r\n`.  The fuel argument (always at
least the length of the list) makes the recursion structural. -/
def splitCRLFAux (fuel : Nat) (l : List Nat) : List (List Nat) :=
  match fuel with
  | 0 => [l]
  | fuel + 1 =>
    match substr_interval l [13, 10] with
    | none => [l]
    | some (b, e) => l.take b :: splitCRLFAux fuel (l.drop e)

def splitCRLF (l : List Nat) : List (List Nat) := splitCRLFAux l.length l

/-- Lower-case an ASCII byte. -/
def lowerByte (c : Nat) : Nat := if 65 ≤ c ∧ c ≤ 90 then c + 32 else c

/-- Modelled from the spec: the value of a `Name: value` header line when the
name matches `Content-Length` case-insensitively, `none` for any other line. -/
def contentLengthOfLine (line : List Nat) : Option Nat :=
  match substrPos line [58] with
  | none => none
  | some i =>
    if (line.take i).map lowerByte = strBytes "content-length" then
      parseAsciiNat ((line.drop (i + 1)).dropWhile (fun c => c = 32))
    else none

/-- Modelled from the spec (section 4.1, decoder contract): extract the
`Content-Length` header case-insensitively, ignore all other headers, and
return exactly that many bytes after the blank-line separator, leaving the
remaining bytes for the next frame. -/
def spec_decode (stream : List Nat) : Option (List Nat × List Nat) :=
  match substr_interval stream SEPARATOR with
  | none => none
  | some (separator_begin_idx, separator_end_idx) =>
    match (splitCRLF (stream.take separator_begin_idx)).findSome? contentLengthOfLine with
    | none => none
    | some content_length =>
      let rest := stream.drop separator_end_idx
      if content_length ≤ rest.length then
        some (rest.take content_length, rest.drop content_length)
      else none

/-- A frame with a `Content-Type` header preceding `Content-Length`: the
specification's decoder must ignore the extra header; the implemented decoder
fails on it. -/
def contentTypeFrame : List Nat :=
  strBytes "Content-Type: application/json" ++ [13, 10] ++
    strBytes "Content-Length: 2" ++ SEPARATOR ++ [97, 98]

/-! ## Project-directory resolution

`SessionRunner::project_dirpath` (`src/session_runner.rs` lines 81-93; the
identical `Session::project_dirpath` is at `src/session.rs` lines 75-87).
Absolute filesystem paths are modelled as their lists of normal components
(the root `/` is `[]`); the filesystem is the list of paths of existing
files.  `Path::ancestors` yields the path and then each parent up to the
root; `Path::with_file_name` replaces the last component, or appends when
the path has no last component (the root). -/

def MANIFEST_FILE_NAME : String := "lake-manifest.json"

/-- `Path::ancestors` over component lists (fuel keeps the recursion
structural; `fuel = cs.length` always suffices). -/
def ancestorsAux : Nat → List String → List (List String)
  | _, [] => [[]]
  | 0, cs => [cs]
  | fuel + 1, cs => cs :: ancestorsAux fuel cs.dropLast

def ancestorsComps (cs : List String) : List (List String) :=
  ancestorsAux cs.length cs

/-- `Path::with_file_name` over component lists. -/
def with_file_name (cs : List String) (name : String) : List String :=
  match cs with
  | [] => [name]
  | _ :: _ => cs.dropLast ++ [name]

/-- The ancestor loop of `SessionRunner::project_dirpath`: for each ancestor,
check `ancestor.with_file_name("lake-manifest.json")` and on a hit return the
hit with its file name popped. -/
def findManifest (fs : List (List String)) : List (List String) → Except Err (List String)
  | [] => .error .noManifest
  | ancestor_path :: rest =>
    let manifest_filepath := with_file_name ancestor_path MANIFEST_FILE_NAME
    if manifest_filepath ∈ fs then .ok manifest_filepath.dropLast
    else findManifest fs rest

/-- `SessionRunner::project_dirpath`. -/
def project_dirpath (fs : List (List String)) (lean_path : List String) :
    Except Err (List String) :=
  findManifest fs (ancestorsComps lean_path)

/-- Modelled from the spec: the success condition claimed by the
specification — some ancestor directory of `lean_path` contains a
`lake-manifest.json` file. -/
def ancestorContainsManifest (fs : List (List String)) (lean_path : List String) : Prop :=
  ∃ a ∈ ancestorsComps lean_path, a ++ [MANIFEST_FILE_NAME] ∈ fs

/-! ## JSON values and messages

JSON is modelled inductively (numbers restricted to integers; every numeric
field the runtime reads or writes is an integer).  Key order inside objects
is the construction order; nothing below depends on it. -/

inductive Json where
  | null
  | bool (b : Bool)
  | num (n : Int)
  | str (s : String)
  | arr (elems : List Json)
  | obj (fields : List (String × Json))
deriving Repr

/-- Field access on a JSON object (`serde_json::Value::get`). -/
def getField (j : Json) (key : String) : Option Json :=
  match j with
  | .obj fields => lookupA fields key
  | _ => none

/-- The request-id sum type (`src/messages.rs`, used by `session_runner.rs`;
its definition is not under `src/`).  Modelled from the spec: `OurId(ULID)`
for requests we originate, `ServerId(integer)` for server-originated ones;
a ULID is identified with its serialized string. -/
inductive Id where
  | ourId (ulid : String)
  | serverId (n : Int)
deriving DecidableEq, Repr

/-- Modelled from the spec: untagged, shape-directed deserialization of an
inbound `id` field — strings are ULIDs (ours), integers are server ids.
(ULID well-formedness of the string is not modelled.) -/
def decodeId (j : Json) : Option Id :=
  match j with
  | .str s => some (.ourId s)
  | .num n => some (.serverId n)
  | _ => none

/-- Modelled from the spec (message factory, section 4.3): a JSON-RPC message
as handed to `LeanServer::send` — requests carry a freshly minted `OurId`,
notifications carry no id.  The `Message` struct used by `session_runner.rs`
is not under `src/`; methods and params below are taken from the param
builders that are (`src/messages/text_document.rs`,
`src/messages/lean_rpc.rs`). -/
structure Message where
  id : Option Id
  method : String
  params : Json
deriving Repr

/-- `Location` (`src/types.rs`): zero-based line/character plus a file path
(paths are modelled as absolute path strings). -/
structure Location where
  filepath : String
  line : Nat
  character : Nat
deriving Repr

/-- `Utils::to_uri` (`src/utils.rs`): `"file://"` prepended to the absolute
path; path canonicalisation is not modelled (paths stand for their absolute
forms). -/
def toUri (p : String) : String := "file://" ++ p

/-- `INITIAL_TEXT_DOCUMENT_VERSION` (`src/messages/text_document.rs` line 3). -/
def INITIAL_TEXT_DOCUMENT_VERSION : Nat := 0

namespace text_document

/-- `did_open_notification_params` (`src/messages/text_document.rs`). -/
def did_open_notification_params (text uri : String) : Json :=
  .obj [("dependencyBuildMode", .str "never"),
    ("textDocument", .obj [("languageId", .str "lean4"), ("text", .str text),
      ("uri", .str uri), ("version", .num (Int.ofNat INITIAL_TEXT_DOCUMENT_VERSION))])]

/-- `did_change_notification_params` (`src/messages/text_document.rs`
lines 19-29). -/
def did_change_notification_params (text uri : String) (version : Nat) : Json :=
  .obj [("textDocument", .obj [("uri", .str uri), ("version", .num (Int.ofNat version))]),
    ("contentChanges", .arr [.obj [("text", .str text)]])]

/-- `did_close_notification_params` (`src/messages/text_document.rs`). -/
def did_close_notification_params (uri : String) : Json :=
  .obj [("textDocument", .obj [("uri", .str uri)])]

/-- `document_symbol_params` (`src/messages/text_document.rs`). -/
def document_symbol_params (uri : String) : Json :=
  .obj [("textDocument", .obj [("uri", .str uri)])]

/-- `document_code_action_params` (`src/messages/text_document.rs`). -/
def document_code_action_params (uri : String) : Json :=
  .obj [("context", .obj [("diagnostics", .arr []), ("triggerKind", .num 2)]),
    ("range", .obj [("end", .obj [("character", .num 0), ("line", .num 0)]),
      ("start", .obj [("character", .num 0), ("line", .num 0)])]),
    ("textDocument", .obj [("uri", .str uri)])]

/-- `folding_range_params` (`src/messages/text_document.rs`). -/
def folding_range_params (uri : String) : Json :=
  .obj [("textDocument", .obj [("uri", .str uri)])]

end text_document

namespace lean_rpc

/-- `connect_params` (`src/messages/lean_rpc.rs`). -/
def connect_params (uri : String) : Json := .obj [("uri", .str uri)]

/-- `get_plain_goals` params (`src/messages/lean_rpc.rs`). -/
def get_plain_goals (uri : String) (line character : Nat) : Json :=
  .obj [("textDocument", .obj [("uri", .str uri)]),
    ("position", .obj [("line", .num (Int.ofNat line)),
      ("character", .num (Int.ofNat character))])]

end lean_rpc

/-- Modelled from the spec: `initialize` request params (the builder in
`src/messages/initialize.rs` is not under `src/`); only the fields the spec
names, none of which the verified properties inspect. -/
def initialize_params (root_uri : String) : Json :=
  .obj [("processId", .num 0), ("rootUri", .str root_uri), ("capabilities", .obj [])]

/-- Modelled from the spec: hover request params (the builder is not under
`src/`): `textDocument.uri` plus a zero-based position. -/
def hover_params (uri : String) (line character : Nat) : Json :=
  .obj [("textDocument", .obj [("uri", .str uri)]),
    ("position", .obj [("line", .num (Int.ofNat line)),
      ("character", .num (Int.ofNat character))])]

def text_document_did_open_notification (text uri : String) : Message :=
  ⟨none, "textDocument/didOpen", text_document.did_open_notification_params text uri⟩

def text_document_did_change_notification (text uri : String) (version : Nat) : Message :=
  ⟨none, "textDocument/didChange", text_document.did_change_notification_params text uri version⟩

def text_document_did_close_notification (uri : String) : Message :=
  ⟨none, "textDocument/didClose", text_document.did_close_notification_params uri⟩

def text_document_document_symbol_request (uri : String) (i : Id) : Message :=
  ⟨some i, "textDocument/documentSymbol", text_document.document_symbol_params uri⟩

def text_document_document_code_action_request (uri : String) (i : Id) : Message :=
  ⟨some i, "textDocument/codeAction", text_document.document_code_action_params uri⟩

def text_document_folding_range_request (uri : String) (i : Id) : Message :=
  ⟨some i, "textDocument/foldingRange", text_document.folding_range_params uri⟩

def lean_rpc_connect_request (uri : String) (i : Id) : Message :=
  ⟨some i, "$/lean/rpc/connect", lean_rpc.connect_params uri⟩

def lean_rpc_get_plain_goals_request (uri : String) (line character : Nat) (i : Id) : Message :=
  ⟨some i, "$/lean/plainGoal", lean_rpc.get_plain_goals uri line character⟩

def text_document_hover_request (uri : String) (line character : Nat) (i : Id) : Message :=
  ⟨some i, "textDocument/hover", hover_params uri line character⟩

def initialize_request (root_uri : String) (i : Id) : Message :=
  ⟨some i, "initialize", initialize_params root_uri⟩

def initialized_notification : Message := ⟨none, "initialized", .obj []⟩

/-! ## The session actor (`SessionRunner`, `src/session_runner.rs`)

Oneshot reply slots are identified by `Nat` tokens.  The environment fixes,
for each send on the unbounded input channel (numbered in order) whether it
succeeds, for each oneshot token whether its receiver is still attached when
the actor resolves it, and the contents of the file system.  The observable
history lives in the state: `sent` is the sequence of messages handed to
`LeanServer::send` in order, `resolved` the oneshot tokens resolved,
`notificationsOut` the notifications broadcast to subscribers. -/

/-- The pending-request variants (`enum Request`, `src/session_runner.rs`
lines 25-34); the three caller-facing variants carry their oneshot token. -/
inductive Request where
  | Initialize (sender : Nat)
  | GetPlainGoals (sender : Nat)
  | Hover (sender : Nat)
  | TextDocumentDocumentSymbol
  | TextDocumentDocumentCodeAction
  | TextDocumentFoldingRange
  | LeanRpcConnect
deriving DecidableEq, Repr

/-- `SessionCommand` (`src/commands.rs` lines 18-42). -/
inductive SessionCommand where
  | Initialize (sender : Nat)
  | OpenFile (sender : Nat) (filepath : String)
  | ChangeFile (sender : Nat) (filepath : String) (text : String)
  | CloseFile (sender : Nat) (filepath : String)
  | HoverFile (sender : Nat) (location : Location)
  | GetPlainGoals (sender : Nat) (location : Location)
  | GetStatus (sender : Nat)
deriving Repr

/-- The mutable state of `SessionRunner` together with the observable traces
of the session. -/
structure RunnerState where
  projectDirpath : String
  openFileVersions : List (String × Nat)
  requests : List (Id × Request)
  sent : List Message
  resolved : List Nat
  notificationsOut : List Json
  sendCount : Nat
  nextUlid : Nat
deriving Repr

/-- The scheduler-and-channel environment of one session. -/
structure Env where
  sendOk : Nat → Bool
  receiverAlive : Nat → Bool
  fileText : String → Option String

def initState (projectDirpath : String) : RunnerState :=
  ⟨projectDirpath, [], [], [], [], [], 0, 0⟩

/-- Modelled from the spec: a freshly minted ULID request id (request-id
uniqueness per session comes from the counter). -/
def mintId (s : RunnerState) : Id × RunnerState :=
  (Id.ourId ("ulid-" ++ Nat.repr s.nextUlid), { s with nextUlid := s.nextUlid + 1 })

/-- `LeanServer::send` (`src/lean_server.rs` lines 172-180): hand the
serialized message to the unbounded input channel; fails iff the channel is
closed, in which case nothing is queued.  The attempt counter indexes the
send oracle whether or not the send succeeds. -/
def lean_server_send (env : Env) (m : Message) (s : RunnerState) :
    Except Err Unit × RunnerState :=
  if env.sendOk s.sendCount then
    (.ok (), { s with sendCount := s.sendCount + 1, sent := s.sent ++ [m] })
  else
    (.error .channelClosed, { s with sendCount := s.sendCount + 1 })

/-- Sequencing of fallible steps that thread the actor state (the `?`
operator of the source: on error the state reached so far is kept). -/
def bindE (r : Except Err Unit × RunnerState)
    (f : RunnerState → Except Err Unit × RunnerState) :
    Except Err Unit × RunnerState :=
  match r with
  | (.ok _, s) => f s
  | (.error e, s) => (.error e, s)

/-- `SessionRunner::send_request` (lines 95-101): register the pending entry
under the message's id, then send (the entry stays registered even when the
send fails). -/
def send_request (env : Env) (m : Message) (request : Request) (s : RunnerState) :
    Except Err Unit × RunnerState :=
  match m.id with
  | some i => lean_server_send env m { s with requests := insertA s.requests i request }
  | none => lean_server_send env m s

/-- `Utils::send_to_oneshot` (`src/utils.rs` lines 136-145): resolving a
oneshot reply slot fails iff the caller has dropped the receiver.  The
delivered value itself is not recorded, only the resolution. -/
def send_to_oneshot (env : Env) (sender : Nat) (s : RunnerState) :
    Except Err Unit × RunnerState :=
  if env.receiverAlive sender then (.ok (), { s with resolved := s.resolved ++ [sender] })
  else (.error .oneshotClosed, s)

/-- `SessionRunner::initialize` (lines 103-108). -/
def initialize_cmd (env : Env) (sender : Nat) (s : RunnerState) :
    Except Err Unit × RunnerState :=
  let (i, s1) := mintId s
  send_request env (initialize_request (toUri s1.projectDirpath) i)
    (Request.Initialize sender) s1

/-- `SessionRunner::open_file` (lines 110-144). -/
def open_file (env : Env) (filepath : String) (s : RunnerState) :
    Except Err Unit × RunnerState :=
  if (lookupA s.openFileVersions filepath).isSome then (.error .alreadyOpen, s)
  else
    match env.fileText filepath with
    | none => (.error .ioFailure, s)
    | some text =>
      let uri := toUri filepath
      let m1 := text_document_did_open_notification text uri
      let (i2, s) := mintId s
      let m2 := text_document_document_symbol_request uri i2
      let (i3, s) := mintId s
      let m3 := text_document_document_code_action_request uri i3
      let (i4, s) := mintId s
      let m4 := text_document_folding_range_request uri i4
      let (i5, s) := mintId s
      let m5 := lean_rpc_connect_request uri i5
      bindE (lean_server_send env m1 s) fun s =>
      bindE (send_request env m2 .TextDocumentDocumentSymbol s) fun s =>
      bindE (send_request env m3 .TextDocumentDocumentCodeAction s) fun s =>
      bindE (send_request env m4 .TextDocumentFoldingRange s) fun s =>
      bindE (send_request env m5 .LeanRpcConnect s) fun s =>
      (.ok (),
        { s with openFileVersions :=
                   insertA s.openFileVersions filepath INITIAL_TEXT_DOCUMENT_VERSION })

/-- `SessionRunner::change_file` (lines 146-163): the stored version is
bumped only after the `didChange` send succeeds. -/
def change_file (env : Env) (filepath text : String) (s : RunnerState) :
    Except Err Unit × RunnerState :=
  match lookupA s.openFileVersions filepath with
  | none => (.error .fileNotOpen, s)
  | some version =>
    let new_version := version + 1
    let uri := toUri filepath
    bindE (lean_server_send env
        (text_document_did_change_notification text uri new_version) s) fun s =>
      (.ok (),
        { s with openFileVersions := insertA s.openFileVersions filepath (version + 1) })

/-- `SessionRunner::close_file` (lines 165-179). -/
def close_file (env : Env) (filepath : String) (s : RunnerState) :
    Except Err Unit × RunnerState :=
  if (lookupA s.openFileVersions filepath).isSome then
    let uri := toUri filepath
    bindE (lean_server_send env (text_document_did_close_notification uri) s) fun s =>
      (.ok (), { s with openFileVersions := removeA s.openFileVersions filepath })
  else (.error .fileNotOpen, s)

/-- `SessionRunner::hover_file` (lines 181-190). -/
def hover_file (env : Env) (sender : Nat) (location : Location) (s : RunnerState) :
    Except Err Unit × RunnerState :=
  let uri := toUri location.filepath
  let (i, s1) := mintId s
  send_request env (text_document_hover_request uri location.line location.character i)
    (Request.Hover sender) s1

/-- `SessionRunner::get_plain_goals` (lines 192-203). -/
def get_plain_goals (env : Env) (sender : Nat) (location : Location) (s : RunnerState) :
    Except Err Unit × RunnerState :=
  let uri := toUri location.filepath
  let (i, s1) := mintId s
  send_request env
    (lean_rpc_get_plain_goals_request uri location.line location.character i)
    (Request.GetPlainGoals sender) s1

/-- `SessionRunner::process_command` (lines 212-225): for the file commands
and `GetStatus`, the handler's own result (success or error) is delivered to
the caller over the oneshot, and only a failed oneshot delivery is an error
of the command arm; for `Initialize`, `HoverFile` and `GetPlainGoals` the
handler result itself is the arm result. -/
def process_command (env : Env) (c : SessionCommand) (s : RunnerState) :
    Except Err Unit × RunnerState :=
  match c with
  | .Initialize sender => initialize_cmd env sender s
  | .OpenFile sender filepath =>
    let r := open_file env filepath s
    send_to_oneshot env sender r.2
  | .ChangeFile sender filepath text =>
    let r := change_file env filepath text s
    send_to_oneshot env sender r.2
  | .HoverFile sender location => hover_file env sender location s
  | .CloseFile sender filepath =>
    let r := close_file env filepath s
    send_to_oneshot env sender r.2
  | .GetPlainGoals sender location => get_plain_goals env sender location s
  | .GetStatus sender => send_to_oneshot env sender s

/-- Element-wise decoding of a JSON array of strings. -/
def decodeStrings : List Json → Option (List String)
  | [] => some []
  | .str s :: rest => (decodeStrings rest).map (fun l => s :: l)
  | _ => none

/-- `PlainGoals` deserialization (`src/server/responses.rs`,
`src/types.rs`). -/
def decodePlainGoals (j : Json) : Option (List String × String) :=
  match getField j "goals", getField j "rendered" with
  | some (.arr gs), some (.str rendered) => (decodeStrings gs).map (fun l => (l, rendered))
  | _, _ => none

/-- `GetPlainGoalsResponse` deserialization from the full response message
(`result` is an `Option` field: absent or `null` mean `none`). -/
def decodeGetPlainGoalsResponse (j : Json) : Option (Option (List String × String)) :=
  match getField j "result" with
  | none => some none
  | some .null => some none
  | some v => (decodePlainGoals v).map some

/-- `SessionRunner::process_response` (lines 227-253): resolving the reply
slot uses `send_to_oneshot` and its error propagates (`?`); for the
fire-and-forget variants the response is discarded. -/
def process_response (env : Env) (request : Request) (response : Json) (s : RunnerState) :
    Except Err Unit × RunnerState :=
  match request with
  | .Initialize sender =>
    bindE (send_to_oneshot env sender s) fun s =>
      lean_server_send env initialized_notification s
  | .GetPlainGoals sender =>
    match decodeGetPlainGoalsResponse response with
    | none => (.error .decode, s)
    | some _ => send_to_oneshot env sender s
  | .Hover sender =>
    match getField response "result" with
    | none => (.error .decode, s)
    | some _ => send_to_oneshot env sender s
  | .TextDocumentDocumentSymbol => (.ok (), s)
  | .TextDocumentDocumentCodeAction => (.ok (), s)
  | .TextDocumentFoldingRange => (.ok (), s)
  | .LeanRpcConnect => (.ok (), s)

/-- `SessionRunner::process_notification` (lines 261-266): broadcast; a
failed broadcast (no subscribers) is logged and benign. -/
def process_notification (notification : Json) (s : RunnerState) : RunnerState :=
  { s with notificationsOut := s.notificationsOut ++ [notification] }

/-- `SessionRunner::process_message` (lines 268-280). -/
def process_message (env : Env) (message : Json) (s : RunnerState) :
    Except Err Unit × RunnerState :=
  match getField message "id" with
  | none => (.ok (), process_notification message s)
  | some idJson =>
    match decodeId idJson with
    | none => (.error .decode, s)
    | some i =>
      match lookupA s.requests i with
      | some request =>
        process_response env request message { s with requests := removeA s.requests i }
      | none => (.ok (), s)

/-! ### The run loop (`SessionRunner::result`, lines 282-290)

Each iteration selects one ready event.  `cmd` and `msg` events are a
command, respectively an inbound parsed frame, delivered by the respective
channel; `msgClosed` is the subprocess-side channel failing (the supervisor
pump ended, e.g. because the subprocess exited).  Modelled from the spec:
dropping every session handle does not produce an event on the command arm —
the spec's cancellation contract states the run task continues until the
subprocess exits (the end-of-stream behavior of `mkutils`' `next_item_async`
is not under `src/`). -/

inductive SessionEvent where
  | cmd (c : SessionCommand)
  | msg (j : Json)
  | msgClosed
deriving Repr

inductive LoopOutcome where
  | running (s : RunnerState)
  | finished (e : Err) (s : RunnerState)
deriving Repr

def processEvent (env : Env) (e : SessionEvent) (s : RunnerState) :
    Except Err Unit × RunnerState :=
  match e with
  | .cmd c => process_command env c s
  | .msg j => process_message env j s
  | .msgClosed => (.error .channelClosed, s)

/-- The run loop: process events in order; any error propagated by an arm
(`?`) terminates the loop, otherwise it keeps selecting. -/
def runLoop (env : Env) (s : RunnerState) : List SessionEvent → LoopOutcome
  | [] => .running s
  | e :: rest =>
    match processEvent env e s with
    | (.ok _, s1) => runLoop env s1 rest
    | (.error err, s1) => .finished err s1

def stateOf : LoopOutcome → RunnerState
  | .running s => s
  | .finished _ s => s

def isRunning : LoopOutcome → Bool
  | .running _ => true
  | .finished _ _ => false

/-! ### Observables of the message trace -/

/-- The file URI carried by a message: `params.textDocument.uri`, or the
top-level `params.uri` used by `$/lean/rpc/connect`. -/
def uriOf (m : Message) : Option String :=
  match getField m.params "textDocument" with
  | some td =>
    match getField td "uri" with
    | some (.str u) => some u
    | _ => none
  | none =>
    match getField m.params "uri" with
    | some (.str u) => some u
    | _ => none

/-- The version carried at `params.textDocument.version`. -/
def versionOf (m : Message) : Option Int :=
  match getField m.params "textDocument" with
  | some td =>
    match getField td "version" with
    | some (.num v) => some v
    | _ => none
  | none => none

/-- The five messages sent by an accepted `OpenFile` in order, with the ids
minted from the state's counter. -/
def open_file_messages (text uri : String) (u : Nat) : List Message :=
  [text_document_did_open_notification text uri,
   text_document_document_symbol_request uri (Id.ourId ("ulid-" ++ Nat.repr u)),
   text_document_document_code_action_request uri (Id.ourId ("ulid-" ++ Nat.repr (u + 1))),
   text_document_folding_range_request uri (Id.ourId ("ulid-" ++ Nat.repr (u + 2))),
   lean_rpc_connect_request uri (Id.ourId ("ulid-" ++ Nat.repr (u + 3)))]

/-- An environment in which every channel send succeeds, every oneshot
receiver is alive, and every file reads as `"t"`. -/
def happyEnv : Env := ⟨fun _ => true, fun _ => true, fun _ => some "t"⟩

/-! ### Per-file view of the message trace

`sinceOpen F tr` is the chronological list of versions carried by the
`didChange` notifications for file `F` emitted after the latest `didOpen`
for `F` (`none` when no `didOpen` for `F` was emitted at all).  It is
computed from the newest end of the trace. -/

def isDidOpenFor (F : String) (m : Message) : Bool :=
  m.method == "textDocument/didOpen" && uriOf m == some (toUri F)

def didChangeVersionFor (F : String) (m : Message) : Option Int :=
  if m.method == "textDocument/didChange" && uriOf m == some (toUri F) then
    versionOf m
  else none

def sinceOpenRev (F : String) : List Message → Option (List Int)
  | [] => none
  | m :: tr =>
    if isDidOpenFor F m then some []
    else
      match didChangeVersionFor F m with
      | some v => (sinceOpenRev F tr).map (fun l => l ++ [v])
      | none => sinceOpenRev F tr

def sinceOpen (F : String) (tr : List Message) : Option (List Int) :=
  sinceOpenRev F tr.reverse

/-- `[1, 2, …, v]` as integers: the strictly-increasing-by-one version
sequence starting at 1. -/
def versionsUpTo (v : Nat) : List Int := (List.range' 1 v).map Int.ofNat

/-- Every `didOpen` in the trace carries version 0. -/
def didOpensAtZero (tr : List Message) : Prop :=
  ∀ m ∈ tr, m.method = "textDocument/didOpen" → versionOf m = some 0

/-- The version-trace invariant relating the open-files map to the sent
trace: an open file's stored version `v` means exactly the `didChange`
versions `1, …, v` were emitted since its latest `didOpen`; and whatever the
map says, the current epoch (when one exists) is of that shape. -/
def InvT (vers : List (String × Nat)) (tr : List Message) : Prop :=
  (∀ F, (∀ v, lookupA vers F = some v → sinceOpen F tr = some (versionsUpTo v)) ∧
    (sinceOpen F tr = none ∨ ∃ k, sinceOpen F tr = some (versionsUpTo k))) ∧
  didOpensAtZero tr

/-- A message that is neither a `didOpen` nor a `didChange` for any file. -/
def NeutralMsg (m : Message) : Prop :=
  (∀ F, isDidOpenFor F m = false ∧ didChangeVersionFor F m = none) ∧
    m.method ≠ "textDocument/didOpen"

def InvS (s : RunnerState) : Prop := InvT s.openFileVersions s.sent

/-- The oneshot token a pending request would resolve (`none` for the
fire-and-forget variants). -/
def replyToken : Request → Option Nat
  | .Initialize sender => some sender
  | .GetPlainGoals sender => some sender
  | .Hover sender => some sender
  | .TextDocumentDocumentSymbol => none
  | .TextDocumentDocumentCodeAction => none
  | .TextDocumentFoldingRange => none
  | .LeanRpcConnect => none

/-- The response deserializes into the shape the pending variant expects
(trivially true for `Initialize`, which deserializes nothing). -/
def decodeOk (request : Request) (response : Json) : Prop :=
  match request with
  | .GetPlainGoals _ => (decodeGetPlainGoalsResponse response).isSome = true
  | .Hover _ => (getField response "result").isSome = true
  | _ => True

/-! ## The session-set actor (`src/session_set.rs`, `src/session_set_runner.rs`)

Session ids (ULIDs) are modelled as naturals minted from a counter.  Only the
id of a session handle is relevant to the verified properties; the handle's
channel endpoints are not modelled at this level. -/

/-- A session handle as stored in the session-set dictionary. -/
structure Session where
  id : Nat
deriving DecidableEq, Repr

/-- `SessionSetRunner::get_session` (`src/session_set_runner.rs` lines 47-55)
and the identical `SessionSet::get_session_client` (`src/session_set.rs`
lines 147-155): an explicit id is looked up (`try_get`), no id resolves to
the single session iff the dictionary has exactly one entry, and is
ambiguous otherwise.  The `.error .channelClosed` branch is unreachable
(guarded by the length check). -/
def get_session (sessions : List (Nat × Session)) (session_id : Option Nat) :
    Except Err Session :=
  match session_id with
  | some sid =>
    match lookupA sessions sid with
    | some s => .ok s
    | none => .error .unknownSession
  | none =>
    if sessions.length = 1 then
      match sessions.head? with
      | some kv => .ok kv.2
      | none => .error .channelClosed
    else .error .ambiguousSession

/-- `SessionSetCommand` (`src/session_set.rs` lines 52-64; oneshot reply
slots are `Nat` tokens as for the session actor). -/
inductive SessionSetCommand where
  | NewSession (sender : Nat) (lean_path : List String)
  | GetSessions (sender : Nat)
  | GetSession (sender : Nat) (session_id : Option Nat)
deriving DecidableEq, Repr

/-- The session-set actor's state: the dictionary of sessions, the ULID
counter, and the trace of resolved oneshot tokens. -/
structure SetState where
  sessions : List (Nat × Session)
  nextUlid : Nat
  resolved : List Nat
deriving DecidableEq, Repr

/-- Environment of the session-set actor: the filesystem consulted by
`project_dirpath` and the liveness of oneshot receivers. -/
structure SetEnv where
  fs : List (List String)
  receiverAlive : Nat → Bool

/-- Resolve a command's oneshot: a dead receiver only means the delivery
error is logged (`log_error`) — the state is otherwise unaffected. -/
def resolveSet (env : SetEnv) (sender : Nat) (s : SetState) : SetState :=
  if env.receiverAlive sender then { s with resolved := s.resolved ++ [sender] } else s

/-- `SessionSet::process_command` (lines 157-171): `NewSession` resolves the
project directory and on success registers a fresh session; every command
delivers its result (success or error) on its oneshot; no outcome is an
error of the loop. -/
def processSetCommand (env : SetEnv) (c : SessionSetCommand) (s : SetState) : SetState :=
  match c with
  | .NewSession sender lean_path =>
    match project_dirpath env.fs lean_path with
    | .ok _ =>
      let sid := s.nextUlid
      resolveSet env sender ⟨insertA s.sessions sid ⟨sid⟩, s.nextUlid + 1, s.resolved⟩
    | .error _ => resolveSet env sender s
  | .GetSessions sender => resolveSet env sender s
  | .GetSession sender _ => resolveSet env sender s

/-- The events the session-set run loop can select: a command, the command
channel reporting closure (`recv()` returning `None` once every
`SessionSetClient` is dropped and the queue is drained), a session run task
completing, a join error, and `join_next` on an empty join set (which the
loop answers with `yield_now`). -/
inductive SetEvent where
  | cmd (c : SessionSetCommand)
  | cmdClosed
  | taskDone (session_id : Nat)
  | joinFailed
  | joinEmpty
deriving DecidableEq, Repr

/-- `SessionSet::cleanup_session` (lines 173-181): remove the finished
session from the dictionary (an error result is only logged). -/
def cleanup_session (session_id : Nat) (s : SetState) : SetState :=
  { s with sessions := removeA s.sessions session_id }

inductive SetOutcome where
  | running (s : SetState)
  | finishedOk (s : SetState)
deriving DecidableEq, Repr

/-- `SessionSet::run` (`src/session_set.rs` lines 184-199): command
processing errors are logged and never break the loop; observing the closed
command channel returns `Ok(())`; completed tasks are reaped; join errors
are logged; an empty join set yields and continues. -/
def sessionSetRun (env : SetEnv) (s : SetState) : List SetEvent → SetOutcome
  | [] => .running s
  | e :: rest =>
    match e with
    | .cmd c => sessionSetRun env (processSetCommand env c s) rest
    | .cmdClosed => .finishedOk s
    | .taskDone sid => sessionSetRun env (cleanup_session sid s) rest
    | .joinFailed => sessionSetRun env s rest
    | .joinEmpty => sessionSetRun env s rest

/-- A session state in which `/x.lean` is open at version 3. -/
def openXState : RunnerState := ⟨"/p", [("/x.lean", 3)], [], [], [], [], 0, 0⟩

/-- An environment in which every oneshot receiver has been dropped. -/
def droppedEnv : Env := ⟨fun _ => true, fun _ => false, fun _ => none⟩

/-- A session with one pending `Initialize` request under id `ulid-0` whose
caller token is 0. -/
def pendingInitState : RunnerState :=
  ⟨"/p", [], [(Id.ourId "ulid-0", Request.Initialize 0)], [], [], [], 1, 1⟩

/-- The server's reply to the pending initialize request. -/
def initReply : Json :=
  Json.obj [("jsonrpc", .str "2.0"), ("id", .str "ulid-0"), ("result", .obj [])]

/-- A server notification (no `id` field). -/
def progressNotification : Json :=
  Json.obj [("jsonrpc", .str "2.0"), ("method", .str "$/lean/fileProgress"),
    ("params", .obj [])]

/-- The state expected after the orphaned reply: the pending entry removed,
nothing else changed. -/
def pendingRemovedState : RunnerState :=
  { pendingInitState with requests := removeA pendingInitState.requests (Id.ourId "ulid-0") }

/-- An open followed by one change of `/a.lean`. -/
def c4evs : List SessionEvent :=
  [SessionEvent.cmd (SessionCommand.OpenFile 0 "/a.lean"),
   SessionEvent.cmd (SessionCommand.ChangeFile 1 "/a.lean" "t2")]

/-! ## Theorems -/

theorem lookupA_removeA_self [DecidableEq α] (m : List (α × β)) (key : α) :
    lookupA (removeA m key) key = none := by
  induction m with
  | nil => rfl
  | cons p rest ih =>
    by_cases h : p.1 = key
    · simpa [removeA, h] using ih
    · simpa [removeA, lookupA, h, Ne.symm h] using ih

theorem lookupA_removeA_ne [DecidableEq α] (m : List (α × β)) (key key' : α)
    (h : key' ≠ key) : lookupA (removeA m key) key' = lookupA m key' := by
  induction m with
  | nil => rfl
  | cons p rest ih =>
    by_cases hk : p.1 = key
    · simp [removeA, hk, lookupA] at ih ⊢
      rw [if_neg (hk ▸ h)] at *
      exact ih
    · simp only [removeA, List.filter] at ih ⊢
      simp only [hk, decide_not, ne_eq, decide_False, Bool.not_false]
      by_cases hk' : key' = p.1
      · simp [lookupA, hk']
      · simpa [lookupA, hk'] using ih

theorem lookupA_insertA_self [DecidableEq α] (m : List (α × β)) (key : α) (val : β) :
    lookupA (insertA m key val) key = some val := by
  simp [insertA, lookupA]

theorem lookupA_insertA_ne [DecidableEq α] (m : List (α × β)) (key key' : α) (val : β)
    (h : key' ≠ key) : lookupA (insertA m key val) key' = lookupA m key' := by
  simp only [insertA, lookupA, if_neg h]
  exact lookupA_removeA_ne m key key' h

/-! ### Codec lemmas -/

theorem substrPos_le (l q : List Nat) (b : Nat) (h : substrPos l q = some b) :
    b + q.length ≤ l.length := by
  induction l generalizing b with
  | nil =>
    rw [substrPos.eq_def] at h
    by_cases hq : q.length ≤ ([] : List Nat).length
    · rw [if_pos hq] at h
      by_cases ht : ([] : List Nat).take q.length = q
      · rw [if_pos ht] at h
        injection h with hb
        subst hb
        simpa using hq
      · rw [if_neg ht] at h
        simp at h
    · rw [if_neg hq] at h
      simp at h
  | cons c t ih =>
    rw [substrPos.eq_def] at h
    by_cases hq : q.length ≤ (c :: t).length
    · rw [if_pos hq] at h
      by_cases ht : (c :: t).take q.length = q
      · rw [if_pos ht] at h
        injection h with hb
        subst hb
        simpa using hq
      · rw [if_neg ht] at h
        simp only [Option.map_eq_some'] at h
        obtain ⟨i, hi, hb⟩ := h
        subst hb
        have := ih i hi
        simp only [List.length_cons]
        omega
    · rw [if_neg hq] at h
      simp at h

/-- If no byte of `h` equals the first byte of the pattern, the first
occurrence of the pattern in `h ++ pattern ++ rest` is at index `h.length`. -/
theorem substrPos_append_first (qh : Nat) (qt h rest : List Nat)
    (hh : ∀ c ∈ h, c ≠ qh) :
    substrPos (h ++ (qh :: qt) ++ rest) (qh :: qt) = some h.length := by
  induction h with
  | nil =>
    have htake : ((qh :: qt) ++ rest).take (qh :: qt).length = qh :: qt :=
      List.take_left _ _
    rw [substrPos.eq_def]
    simp only [List.nil_append]
    rw [if_pos (by simp), if_pos htake]
    rfl
  | cons c t ih =>
    have hc : c ≠ qh := hh c (by simp)
    have hrec := ih (fun x hx => hh x (List.mem_cons_of_mem c hx))
    rw [substrPos.eq_def]
    have hlen : (qh :: qt).length ≤ ((c :: t) ++ (qh :: qt) ++ rest).length := by
      simp
      omega
    rw [if_pos hlen]
    have htk : ((c :: t) ++ (qh :: qt) ++ rest).take (qh :: qt).length ≠ qh :: qt := by
      intro hcontra
      simp only [List.cons_append, List.length_cons, List.take_succ_cons] at hcontra
      exact hc (List.cons.injEq .. ▸ hcontra).1
    rw [if_neg htk]
    show (substrPos (t ++ (qh :: qt) ++ rest) (qh :: qt)).map (fun i => i + 1) =
      some (c :: t).length
    rw [hrec]
    rfl

theorem digitsLEAux_bounds :
    ∀ fuel n, ∀ c ∈ digitsLEAux fuel n, 48 ≤ c ∧ c ≤ 57 := by
  intro fuel
  induction fuel with
  | zero => intro n c hc; simp [digitsLEAux] at hc
  | succ fuel ih =>
    intro n c hc
    rw [digitsLEAux] at hc
    by_cases h : n = 0
    · simp [h] at hc
    · rw [if_neg h] at hc
      rcases List.mem_cons.mp hc with hc | hc
      · subst hc
        have : n % 10 < 10 := Nat.mod_lt _ (by decide)
        omega
      · exact ih (n / 10) c hc

theorem digitsLE_bounds : ∀ n, ∀ c ∈ digitsLE n, 48 ≤ c ∧ c ≤ 57 :=
  fun n => digitsLEAux_bounds n n

theorem digitsLEAux_foldr :
    ∀ fuel n, n ≤ fuel →
      (digitsLEAux fuel n).foldr (fun c a => a * 10 + (c - 48)) 0 = n := by
  intro fuel
  induction fuel with
  | zero => intro n hn; interval_cases n; simp [digitsLEAux]
  | succ fuel ih =>
    intro n hn
    rw [digitsLEAux]
    by_cases h : n = 0
    · simp [h]
    · rw [if_neg h]
      simp only [List.foldr_cons]
      have hdiv : n / 10 ≤ fuel := by
        have : n / 10 < n := Nat.div_lt_self (Nat.pos_of_ne_zero h) (by decide)
        omega
      rw [ih (n / 10) hdiv]
      omega

theorem digitsLE_foldr :
    ∀ n, (digitsLE n).foldr (fun c a => a * 10 + (c - 48)) 0 = n :=
  fun n => digitsLEAux_foldr n n (Nat.le_refl n)

theorem natDigits_bounds (n : Nat) : ∀ c ∈ natDigits n, 48 ≤ c ∧ c ≤ 57 := by
  intro c hc
  rw [natDigits] at hc
  by_cases h : n = 0
  · rw [if_pos h] at hc
    simp at hc
    omega
  · rw [if_neg h, List.mem_reverse] at hc
    exact digitsLE_bounds n c hc

theorem natDigits_ne_nil (n : Nat) : natDigits n ≠ [] := by
  rw [natDigits]
  by_cases h : n = 0
  · simp [h]
  · rw [if_neg h, ne_eq, List.reverse_eq_nil_iff]
    obtain ⟨m, rfl⟩ := Nat.exists_eq_succ_of_ne_zero h
    rw [digitsLE, digitsLEAux]
    simp

/-- Decoding the canonical decimal representation produced by the encoder
recovers the original number. -/
theorem parseAsciiNat_natDigits (n : Nat) : parseAsciiNat (natDigits n) = some n := by
  have hb := natDigits_bounds n
  have hne := natDigits_ne_nil n
  have hhead : (natDigits n).head? ≠ some 43 := by
    cases hd : (natDigits n).head? with
    | none => simp
    | some c =>
      have : c ∈ natDigits n := by
        cases hnd : natDigits n with
        | nil => simp [hnd] at hd
        | cons x xs =>
          rw [hnd] at hd
          simp at hd
          simp [hnd, hd]
      have := hb c this
      simp only [ne_eq, Option.some.injEq]
      omega
  rw [parseAsciiNat]
  simp only [if_neg hhead]
  rw [if_pos]
  · have hval : digitsToNat (natDigits n) = n := by
      rw [natDigits]
      by_cases h : n = 0
      · simp [h, digitsToNat]
      · rw [if_neg h, digitsToNat, List.foldl_reverse]
        exact digitsLE_foldr n
    rw [hval]
  · refine ⟨hne, ?_⟩
    rw [List.all_eq_true]
    intro c hc
    have := hb c hc
    simp [isDigitByte]
    omega

/-- A frame made of a single `name: <n>` header (with `name` free of space and
carriage-return bytes) followed by the separator, an `n`-byte body and
trailing bytes decodes to exactly the body, leaving the trailing bytes
buffered. -/
theorem next_message_single_header (name : List Nat) (n : Nat) (body rest : List Nat)
    (hname : ∀ c ∈ name, c ≠ 32 ∧ c ≠ 13)
    (hbody : body.length = n) :
    next_message (name ++ [32] ++ natDigits n ++ SEPARATOR ++ body ++ rest) =
      some (body, rest) := by
  set hdr : List Nat := name ++ [32] ++ natDigits n with hhdr
  have hstream : name ++ [32] ++ natDigits n ++ SEPARATOR ++ body ++ rest =
      hdr ++ (13 :: [10, 13, 10]) ++ (body ++ rest) := by
    simp [hhdr, SEPARATOR, List.append_assoc]
  have hno13 : ∀ c ∈ hdr, c ≠ 13 := by
    intro c hc
    rw [hhdr] at hc
    simp only [List.append_assoc, List.mem_append, List.mem_singleton] at hc
    rcases hc with hc | hc | hc
    · exact (hname c hc).2
    · omega
    · have := natDigits_bounds n c hc
      omega
  have hsep : substrPos (hdr ++ (13 :: [10, 13, 10]) ++ (body ++ rest)) [13, 10, 13, 10] =
      some hdr.length := substrPos_append_first 13 [10, 13, 10] hdr (body ++ rest) hno13
  have htakehdr : (hdr ++ (13 :: [10, 13, 10]) ++ (body ++ rest)).take hdr.length = hdr := by
    rw [List.append_assoc]
    exact List.take_left _ _
  have hspace : substrPos hdr [32] = some name.length := by
    have := substrPos_append_first 32 [] name (natDigits n)
      (fun c hc => (hname c hc).1)
    simpa [hhdr] using this
  have hdrop : hdr.drop (name.length + 1) = natDigits n := by
    have : hdr = (name ++ [32]) ++ natDigits n := by simp [hhdr]
    rw [this]
    have hlen : (name ++ [32]).length = name.length + 1 := by simp
    rw [← hlen]
    exact List.drop_left _ _
  have hrest : (hdr ++ (13 :: [10, 13, 10]) ++ (body ++ rest)).drop (hdr.length + 4) =
      body ++ rest := by
    have h1 : hdr ++ (13 :: [10, 13, 10]) ++ (body ++ rest) =
        (hdr ++ (13 :: [10, 13, 10])) ++ (body ++ rest) := by
      simp [List.append_assoc]
    have h2 : (hdr ++ (13 :: [10, 13, 10])).length = hdr.length + 4 := by simp
    rw [h1, ← h2]
    exact List.drop_left _ _
  have hsep2 : substrPos (hdr ++ (13 :: [10, 13, 10]) ++ (body ++ rest)) SEPARATOR =
      some hdr.length := hsep
  have hlen4 : SEPARATOR.length = 4 := rfl
  have hlen1 : ([32] : List Nat).length = 1 := rfl
  rw [hstream]
  simp only [next_message, substr_interval, hsep2, Option.map_some', hlen4, hlen1,
    htakehdr, hspace, hdrop, parseAsciiNat_natDigits, hrest]
  rw [if_pos (by simp [hbody])]
  rw [← hbody, List.take_left _ _, List.drop_left _ _]

theorem findManifest_spec (fs : List (List String)) (as : List (List String)) :
    (∀ d, findManifest fs as = .ok d →
        ∃ a ∈ as, with_file_name a MANIFEST_FILE_NAME ∈ fs ∧
          d = (with_file_name a MANIFEST_FILE_NAME).dropLast) ∧
      (findManifest fs as = .error .noManifest ↔
        ∀ a ∈ as, with_file_name a MANIFEST_FILE_NAME ∉ fs) := by
  induction as with
  | nil =>
    refine ⟨fun d hd => by simp [findManifest] at hd, ?_⟩
    simp [findManifest]
  | cons a rest ih =>
    by_cases hmem : with_file_name a MANIFEST_FILE_NAME ∈ fs
    · refine ⟨fun d hd => ?_, ?_⟩
      · rw [findManifest, if_pos hmem] at hd
        injection hd with hd
        exact ⟨a, by simp, hmem, hd.symm⟩
      · rw [findManifest, if_pos hmem]
        constructor
        · intro h; cases h
        · intro h
          exact absurd hmem (h a (by simp))
    · have hrw : findManifest fs (a :: rest) = findManifest fs rest := by
        rw [findManifest, if_neg hmem]
      refine ⟨fun d hd => ?_, ?_⟩
      · rw [hrw] at hd
        obtain ⟨b, hb, hbm, hbd⟩ := ih.1 d hd
        exact ⟨b, List.mem_cons_of_mem a hb, hbm, hbd⟩
      · rw [hrw]
        constructor
        · intro h b hb
          rcases List.mem_cons.mp hb with rfl | hb
          · exact hmem
          · exact (ih.2.mp h) b hb
        · intro h
          exact ih.2.mpr (fun b hb => h b (List.mem_cons_of_mem a hb))

theorem open_file_messages_methods (text uri : String) (u : Nat) :
    (open_file_messages text uri u).map Message.method =
      ["textDocument/didOpen", "textDocument/documentSymbol", "textDocument/codeAction",
       "textDocument/foldingRange", "$/lean/rpc/connect"] := rfl

theorem open_file_messages_uris (text uri : String) (u : Nat) :
    ∀ m ∈ open_file_messages text uri u, uriOf m = some uri := by
  intro m hm
  simp only [open_file_messages, List.mem_cons, List.not_mem_nil, or_false] at hm
  rcases hm with rfl | rfl | rfl | rfl | rfl <;> rfl

/-- C3: an accepted `OpenFile(F)` for a file that is not already open and
whose five sends all succeed hands exactly the five messages didOpen,
documentSymbol, codeAction, foldingRange, `$/lean/rpc/connect` — in that
order, all carrying the URI derived from `F` (see
`open_file_messages_methods` and `open_file_messages_uris`) — to the
subprocess input, and inserts `F ↦ 0` into the open-files map; when any of
the five sends fails, `open_file` returns an error and the open-files map is
left unchanged (in particular without an entry for `F`). -/
theorem c3_open_file_order_and_insert (env : Env) (F text : String) (s : RunnerState)
    (hnot : lookupA s.openFileVersions F = none)
    (hread : env.fileText F = some text) :
    ((∀ k, k < 5 → env.sendOk (s.sendCount + k) = true) →
      (open_file env F s).1 = .ok () ∧
      (open_file env F s).2.sent = s.sent ++ open_file_messages text (toUri F) s.nextUlid ∧
      lookupA (open_file env F s).2.openFileVersions F = some 0) ∧
    ((∃ k, k < 5 ∧ env.sendOk (s.sendCount + k) = false) →
      (∃ e, (open_file env F s).1 = .error e) ∧
      (open_file env F s).2.openFileVersions = s.openFileVersions) := by
  have hnotSome : (lookupA s.openFileVersions F).isSome = false := by
    rw [hnot]; rfl
  constructor
  · intro h5
    have h0 := h5 0 (by omega)
    have h1 := h5 1 (by omega)
    have h2 := h5 2 (by omega)
    have h3 := h5 3 (by omega)
    have h4 := h5 4 (by omega)
    simp only [Nat.add_zero] at h0
    refine ⟨?_, ?_, ?_⟩ <;>
      simp [open_file, hnotSome, hread, mintId, bindE, send_request, lean_server_send,
        h0, h1, h2, h3, h4, open_file_messages, lookupA_insertA_self,
        INITIAL_TEXT_DOCUMENT_VERSION,
        text_document_did_open_notification, text_document_document_symbol_request,
        text_document_document_code_action_request, text_document_folding_range_request,
        lean_rpc_connect_request]
  · rintro ⟨k, hk5, hkf⟩
    by_cases c0 : env.sendOk s.sendCount
    · by_cases c1 : env.sendOk (s.sendCount + 1)
      · by_cases c2 : env.sendOk (s.sendCount + 2)
        · by_cases c3 : env.sendOk (s.sendCount + 3)
          · by_cases c4 : env.sendOk (s.sendCount + 4)
            · exfalso
              interval_cases k <;> simp_all
            · simp [open_file, hnotSome, hread, mintId, bindE, send_request,
                lean_server_send, c0, c1, c2, c3, c4,
                text_document_did_open_notification, text_document_document_symbol_request,
                text_document_document_code_action_request, text_document_folding_range_request,
                lean_rpc_connect_request]
          · simp [open_file, hnotSome, hread, mintId, bindE, send_request,
              lean_server_send, c0, c1, c2, c3,
              text_document_did_open_notification, text_document_document_symbol_request,
              text_document_document_code_action_request, text_document_folding_range_request,
              lean_rpc_connect_request]
        · simp [open_file, hnotSome, hread, mintId, bindE, send_request,
            lean_server_send, c0, c1, c2,
            text_document_did_open_notification, text_document_document_symbol_request,
            text_document_document_code_action_request, text_document_folding_range_request,
            lean_rpc_connect_request]
      · simp [open_file, hnotSome, hread, mintId, bindE, send_request,
          lean_server_send, c0, c1,
          text_document_did_open_notification, text_document_document_symbol_request,
          text_document_document_code_action_request, text_document_folding_range_request,
          lean_rpc_connect_request]
    · simp [open_file, hnotSome, hread, mintId, bindE, send_request,
        lean_server_send, c0,
        text_document_did_open_notification, text_document_document_symbol_request,
        text_document_document_code_action_request, text_document_folding_range_request,
        lean_rpc_connect_request]

/-- C3 witness: the theorem applied to a fresh session and `/a.lean`. -/
theorem c3_open_file_order_and_insert_witness :
    (open_file happyEnv "/a.lean" (initState "/p")).1 = .ok () ∧
    (open_file happyEnv "/a.lean" (initState "/p")).2.sent =
      (initState "/p").sent ++ open_file_messages "t" (toUri "/a.lean") (initState "/p").nextUlid ∧
    lookupA (open_file happyEnv "/a.lean" (initState "/p")).2.openFileVersions "/a.lean" =
      some 0 :=
  (c3_open_file_order_and_insert happyEnv "/a.lean" "t" (initState "/p") rfl rfl).1
    (fun _ _ => rfl)

theorem toUri_inj {a b : String} (h : toUri a = toUri b) : a = b := by
  have hd := congrArg String.data h
  simp only [toUri, String.data_append] at hd
  exact String.ext (List.append_cancel_left hd)

theorem method_didOpen (text u : String) :
    (text_document_did_open_notification text u).method = "textDocument/didOpen" := rfl

theorem uriOf_didOpen (text u : String) :
    uriOf (text_document_did_open_notification text u) = some u := rfl

theorem versionOf_didOpen (text u : String) :
    versionOf (text_document_did_open_notification text u) = some 0 := rfl

theorem method_didChange (text u : String) (ver : Nat) :
    (text_document_did_change_notification text u ver).method =
      "textDocument/didChange" := rfl

theorem uriOf_didChange (text u : String) (ver : Nat) :
    uriOf (text_document_did_change_notification text u ver) = some u := rfl

theorem versionOf_didChange (text u : String) (ver : Nat) :
    versionOf (text_document_did_change_notification text u ver) = some (Int.ofNat ver) := rfl

theorem isDidOpenFor_didOpen_self (F text : String) :
    isDidOpenFor F (text_document_did_open_notification text (toUri F)) = true := by
  simp [isDidOpenFor, uriOf_didOpen, method_didOpen]

theorem isDidOpenFor_didOpen_ne (F G text : String) (h : G ≠ F) :
    isDidOpenFor F (text_document_did_open_notification text (toUri G)) = false := by
  have h2 : toUri G ≠ toUri F := fun hh => h (toUri_inj hh)
  simp [isDidOpenFor, uriOf_didOpen, method_didOpen, h2]

theorem didChangeVersionFor_didOpen (F G text : String) :
    didChangeVersionFor F (text_document_did_open_notification text (toUri G)) = none := rfl

theorem isDidOpenFor_didChange (F G text : String) (ver : Nat) :
    isDidOpenFor F (text_document_did_change_notification text (toUri G) ver) = false := rfl

theorem didChangeVersionFor_didChange_self (F text : String) (ver : Nat) :
    didChangeVersionFor F (text_document_did_change_notification text (toUri F) ver) =
      some (Int.ofNat ver) := by
  simp [didChangeVersionFor, uriOf_didChange, versionOf_didChange, method_didChange]

theorem didChangeVersionFor_didChange_ne (F G text : String) (ver : Nat) (h : G ≠ F) :
    didChangeVersionFor F (text_document_did_change_notification text (toUri G) ver) =
      none := by
  have h2 : toUri G ≠ toUri F := fun hh => h (toUri_inj hh)
  simp [didChangeVersionFor, uriOf_didChange, method_didChange, h2]

theorem neutral_didClose (u : String) :
    NeutralMsg (text_document_did_close_notification u) :=
  ⟨fun _ => ⟨rfl, rfl⟩,
   fun hh => by have h2 : ("textDocument/didClose" : String) = "textDocument/didOpen" := hh; simp at h2⟩

theorem neutral_document_symbol (u : String) (i : Id) :
    NeutralMsg (text_document_document_symbol_request u i) :=
  ⟨fun _ => ⟨rfl, rfl⟩,
   fun hh => by have h2 : ("textDocument/documentSymbol" : String) = "textDocument/didOpen" := hh; simp at h2⟩

theorem neutral_code_action (u : String) (i : Id) :
    NeutralMsg (text_document_document_code_action_request u i) :=
  ⟨fun _ => ⟨rfl, rfl⟩,
   fun hh => by have h2 : ("textDocument/codeAction" : String) = "textDocument/didOpen" := hh; simp at h2⟩

theorem neutral_folding_range (u : String) (i : Id) :
    NeutralMsg (text_document_folding_range_request u i) :=
  ⟨fun _ => ⟨rfl, rfl⟩,
   fun hh => by have h2 : ("textDocument/foldingRange" : String) = "textDocument/didOpen" := hh; simp at h2⟩

theorem neutral_rpc_connect (u : String) (i : Id) :
    NeutralMsg (lean_rpc_connect_request u i) :=
  ⟨fun _ => ⟨rfl, rfl⟩,
   fun hh => by have h2 : ("$/lean/rpc/connect" : String) = "textDocument/didOpen" := hh; simp at h2⟩

theorem neutral_hover (u : String) (line character : Nat) (i : Id) :
    NeutralMsg (text_document_hover_request u line character i) :=
  ⟨fun _ => ⟨rfl, rfl⟩,
   fun hh => by have h2 : ("textDocument/hover" : String) = "textDocument/didOpen" := hh; simp at h2⟩

theorem neutral_plain_goals (u : String) (line character : Nat) (i : Id) :
    NeutralMsg (lean_rpc_get_plain_goals_request u line character i) :=
  ⟨fun _ => ⟨rfl, rfl⟩,
   fun hh => by have h2 : ("$/lean/plainGoal" : String) = "textDocument/didOpen" := hh; simp at h2⟩

theorem neutral_initialize_request (u : String) (i : Id) :
    NeutralMsg (initialize_request u i) :=
  ⟨fun _ => ⟨rfl, rfl⟩,
   fun hh => by have h2 : ("initialize" : String) = "textDocument/didOpen" := hh; simp at h2⟩

theorem neutral_initialized : NeutralMsg initialized_notification :=
  ⟨fun _ => ⟨rfl, rfl⟩,
   fun hh => by have h2 : ("initialized" : String) = "textDocument/didOpen" := hh; simp at h2⟩

theorem sinceOpen_append_didOpen (F : String) (tr : List Message) (m : Message)
    (h : isDidOpenFor F m = true) : sinceOpen F (tr ++ [m]) = some [] := by
  simp [sinceOpen, sinceOpenRev, h]

theorem sinceOpen_append_didChange (F : String) (tr : List Message) (m : Message)
    (v : Int) (hopen : isDidOpenFor F m = false)
    (hchg : didChangeVersionFor F m = some v) :
    sinceOpen F (tr ++ [m]) = (sinceOpen F tr).map (fun l => l ++ [v]) := by
  simp [sinceOpen, sinceOpenRev, hopen, hchg]

theorem sinceOpen_append_other (F : String) (tr : List Message) (m : Message)
    (hopen : isDidOpenFor F m = false) (hchg : didChangeVersionFor F m = none) :
    sinceOpen F (tr ++ [m]) = sinceOpen F tr := by
  simp [sinceOpen, sinceOpenRev, hopen, hchg]

theorem versionsUpTo_succ (v : Nat) :
    versionsUpTo (v + 1) = versionsUpTo v ++ [Int.ofNat (v + 1)] := by
  rw [versionsUpTo, List.range'_concat, List.map_append, versionsUpTo]
  simp [Nat.add_comm]

theorem InvT_append_neutral (vers : List (String × Nat)) (tr : List Message)
    (m : Message) (hm : NeutralMsg m) (h : InvT vers tr) : InvT vers (tr ++ [m]) := by
  obtain ⟨hF, hz⟩ := h
  obtain ⟨hcls, hmeth⟩ := hm
  constructor
  · intro F
    rw [sinceOpen_append_other F tr m (hcls F).1 (hcls F).2]
    exact hF F
  · intro m2 hm2 hmeth2
    rcases List.mem_append.mp hm2 with h2 | h2
    · exact hz m2 h2 hmeth2
    · simp only [List.mem_singleton] at h2
      subst h2
      exact absurd hmeth2 hmeth

theorem InvT_append_didOpen (vers : List (String × Nat)) (tr : List Message)
    (fp text : String) (hnone : lookupA vers fp = none) (h : InvT vers tr) :
    InvT vers (tr ++ [text_document_did_open_notification text (toUri fp)]) := by
  obtain ⟨hF, hz⟩ := h
  constructor
  · intro F
    by_cases hFf : F = fp
    · subst hFf
      rw [sinceOpen_append_didOpen F tr _ (isDidOpenFor_didOpen_self F text)]
      constructor
      · intro v hv
        rw [hnone] at hv
        cases hv
      · exact Or.inr ⟨0, rfl⟩
    · have hGF : fp ≠ F := fun hh => hFf hh.symm
      rw [sinceOpen_append_other F tr _ (isDidOpenFor_didOpen_ne F fp text hGF)
        (didChangeVersionFor_didOpen F fp text)]
      exact hF F
  · intro m2 hm2 hmeth2
    rcases List.mem_append.mp hm2 with h2 | h2
    · exact hz m2 h2 hmeth2
    · simp only [List.mem_singleton] at h2
      subst h2
      exact versionOf_didOpen text (toUri fp)

theorem InvT_insert_zero (vers : List (String × Nat)) (tr : List Message) (fp : String)
    (hso : sinceOpen fp tr = some []) (h : InvT vers tr) :
    InvT (insertA vers fp 0) tr := by
  obtain ⟨hF, hz⟩ := h
  refine ⟨fun F => ?_, hz⟩
  by_cases hFf : F = fp
  · subst hFf
    refine ⟨fun v hv => ?_, Or.inr ⟨0, hso⟩⟩
    rw [lookupA_insertA_self] at hv
    injection hv with hv
    subst hv
    exact hso
  · refine ⟨fun v hv => ?_, (hF F).2⟩
    rw [lookupA_insertA_ne _ _ _ _ hFf] at hv
    exact (hF F).1 v hv

theorem InvT_change (vers : List (String × Nat)) (tr : List Message)
    (fp text : String) (v : Nat) (hv : lookupA vers fp = some v) (h : InvT vers tr) :
    InvT (insertA vers fp (v + 1))
      (tr ++ [text_document_did_change_notification text (toUri fp) (v + 1)]) := by
  obtain ⟨hF, hz⟩ := h
  have hcur : sinceOpen fp tr = some (versionsUpTo v) := (hF fp).1 v hv
  constructor
  · intro F
    by_cases hFf : F = fp
    · subst hFf
      rw [sinceOpen_append_didChange F tr _ (Int.ofNat (v + 1))
        (isDidOpenFor_didChange F F text (v + 1))
        (didChangeVersionFor_didChange_self F text (v + 1)), hcur]
      constructor
      · intro w hw
        rw [lookupA_insertA_self] at hw
        injection hw with hw
        subst hw
        simp [versionsUpTo_succ]
      · exact Or.inr ⟨v + 1, by simp [versionsUpTo_succ]⟩
    · have hGF : fp ≠ F := fun hh => hFf hh.symm
      rw [sinceOpen_append_other F tr _ (isDidOpenFor_didChange F fp text (v + 1))
        (didChangeVersionFor_didChange_ne F fp text (v + 1) hGF)]
      constructor
      · intro w hw
        rw [lookupA_insertA_ne _ _ _ _ hFf] at hw
        exact (hF F).1 w hw
      · exact (hF F).2
  · intro m2 hm2 hmeth2
    rcases List.mem_append.mp hm2 with h2 | h2
    · exact hz m2 h2 hmeth2
    · simp only [List.mem_singleton] at h2
      subst h2
      rw [method_didChange] at hmeth2
      exact absurd hmeth2 (by decide)

theorem InvT_remove (vers : List (String × Nat)) (tr : List Message) (fp : String)
    (h : InvT vers tr) : InvT (removeA vers fp) tr := by
  obtain ⟨hF, hz⟩ := h
  refine ⟨fun F => ?_, hz⟩
  by_cases hFf : F = fp
  · subst hFf
    refine ⟨fun v hv => ?_, (hF F).2⟩
    rw [lookupA_removeA_self] at hv
    cases hv
  · refine ⟨fun v hv => ?_, (hF F).2⟩
    rw [lookupA_removeA_ne _ _ _ hFf] at hv
    exact (hF F).1 v hv

/-- C8: for every JSON byte string `b`, writing the `Content-Length` header,
the separator and `b` (the encoder `write_to_process`) and then running the
decoder `next_message` on the resulting bytes yields exactly `b`, with
nothing left over in the buffer. -/
theorem c8_codec_roundtrip (b : List Nat) :
    next_message (write_to_process b) = some (b, []) := by
  have hcl : strBytes "Content-Length: " = strBytes "Content-Length:" ++ [32] := by decide
  have h := next_message_single_header (strBytes "Content-Length:") b.length b []
    (by decide) rfl
  rw [write_to_process, hcl]
  simpa [List.append_assoc] using h

/-- C7 (amended): the decoder does not inspect header names.  It parses the
bytes strictly between the first space before the blank-line separator and
the separator as the decimal content length; a frame whose headers consist of
a single `name: <n>` line — for any space-free name, in particular
`Content-Length` in any casing — decodes to exactly `n` bytes of body, with
the remaining bytes left buffered for the next frame.  A frame in which
another header containing a space (such as `Content-Type`) precedes
`Content-Length` makes the decoder fail instead of being ignored (see the
counterexample). -/
theorem c7_single_header_decode (name : List Nat) (n : Nat) (body rest : List Nat)
    (hname : ∀ c ∈ name, c ≠ 32 ∧ c ≠ 13) (hbody : body.length = n) :
    next_message (name ++ [32] ++ natDigits n ++ SEPARATOR ++ body ++ rest) =
      some (body, rest) :=
  next_message_single_header name n body rest hname hbody

/-- C7 counterexample: on the frame
`Content-Type: application/json\r\nContent-Length: 2\r\n\r\nab`, the decoder
described by the claim (and by the spec, `spec_decode`) ignores the extra
header and returns the two-byte body, but the implemented decoder
`next_message` fails: the bytes between the first space (the one after
`Content-Type:`) and the separator do not parse as a decimal integer. -/
theorem c7_ignored_header_counterexample :
    spec_decode contentTypeFrame = some ([97, 98], []) ∧
      next_message contentTypeFrame = none :=
  ⟨by decide, by decide⟩

/-- C7 witness: a single-header frame with content length 2, body `ab` and a
buffered trailing byte. -/
theorem c7_single_header_decode_witness :
    next_message (strBytes "Content-Length:" ++ [32] ++ natDigits 2 ++ SEPARATOR ++
      [97, 98] ++ [99]) = some ([97, 98], [99]) :=
  c7_single_header_decode (strBytes "Content-Length:") 2 [97, 98] [99] (by decide) rfl

/-- C6 (amended): `project_dirpath` walks the ancestors of `lean_path` and,
for each ancestor, probes the location obtained by replacing the ancestor's
last component with `lake-manifest.json` (for the root, directly beneath it)
— i.e. it looks for the manifest *beside* each ancestor, in its parent
directory, not inside it.  It succeeds iff some such probed location is a
file, returning that location's parent directory, and fails with the
no-manifest error otherwise.  In particular, when `lean_path` is itself the
project directory holding the manifest, resolution fails (see the
counterexample). -/
theorem c6_manifest_sibling_walk (fs : List (List String)) (p : List String) :
    (∀ d, project_dirpath fs p = .ok d →
        ∃ a ∈ ancestorsComps p, with_file_name a MANIFEST_FILE_NAME ∈ fs ∧
          d = (with_file_name a MANIFEST_FILE_NAME).dropLast) ∧
      (project_dirpath fs p = .error .noManifest ↔
        ∀ a ∈ ancestorsComps p, with_file_name a MANIFEST_FILE_NAME ∉ fs) :=
  findManifest_spec fs (ancestorsComps p)

/-- C6 counterexample: with the filesystem containing exactly the file
`/proj/lake-manifest.json` and `lean_path = /proj`, the ancestor `/proj`
contains the manifest, yet `project_dirpath` fails with the no-manifest
error — the walk probes `/lake-manifest.json` (beside `/proj`) but never
looks inside `/proj` itself. -/
theorem c6_manifest_counterexample :
    project_dirpath [["proj", "lake-manifest.json"]] ["proj"] = .error .noManifest ∧
      ancestorContainsManifest [["proj", "lake-manifest.json"]] ["proj"] :=
  ⟨rfl, ⟨["proj"], by decide, by decide⟩⟩

/-- C6 witness: for `lean_path = /a/b.lean` with the manifest at
`/a/lake-manifest.json`, resolution succeeds and returns `/a`. -/
theorem c6_manifest_sibling_walk_witness :
    ∃ a ∈ ancestorsComps ["a", "b.lean"],
      with_file_name a MANIFEST_FILE_NAME ∈ [["a", "lake-manifest.json"]] ∧
        ["a"] = (with_file_name a MANIFEST_FILE_NAME).dropLast :=
  (c6_manifest_sibling_walk [["a", "lake-manifest.json"]] ["a", "b.lean"]).1 ["a"] rfl

/-- C5: a `ChangeFile` or `CloseFile` for a file that is not open fails with
the file-not-open error, and an `OpenFile` for a file that is already open
fails with the already-open error; in each case the state — in particular
the message trace toward the subprocess and the open-files map — is exactly
unchanged. -/
theorem c5_rejected_commands_no_effect (env : Env) (s : RunnerState) (F text : String) :
    (lookupA s.openFileVersions F = none →
      change_file env F text s = (.error .fileNotOpen, s) ∧
      close_file env F s = (.error .fileNotOpen, s)) ∧
    (∀ v, lookupA s.openFileVersions F = some v →
      open_file env F s = (.error .alreadyOpen, s)) := by
  constructor
  · intro h
    have hs : (lookupA s.openFileVersions F).isSome = false := by rw [h]; rfl
    constructor
    · simp [change_file, h]
    · simp [close_file, hs]
  · intro v h
    have hs : (lookupA s.openFileVersions F).isSome = true := by rw [h]; rfl
    simp [open_file, hs]

/-- C1 (amended): when the caller of a pending `Initialize`, `GetPlainGoals`
or `Hover` request has dropped its oneshot receiver before the reply
arrives, processing the eventually arriving reply removes the pending entry
and discards the response, but the failed attempt to resolve the slot is
*not* silent: `send_to_oneshot`'s error propagates out of
`process_response` and `process_message` (`?`), and the run loop terminates
with that error instead of continuing. -/
theorem c1_dropped_receiver_terminates_loop (env : Env) (s : RunnerState)
    (response idJson : Json) (i : Id) (request : Request) (tok : Nat)
    (rest : List SessionEvent)
    (hfind : getField response "id" = some idJson)
    (hdec : decodeId idJson = some i)
    (hreq : lookupA s.requests i = some request)
    (htok : replyToken request = some tok)
    (hdead : env.receiverAlive tok = false)
    (hok : decodeOk request response) :
    process_message env response s =
      (.error .oneshotClosed, { s with requests := removeA s.requests i }) ∧
    (process_message env response s).2.resolved = s.resolved ∧
    lookupA (process_message env response s).2.requests i = none ∧
    runLoop env s (SessionEvent.msg response :: rest) =
      .finished .oneshotClosed { s with requests := removeA s.requests i } := by
  have hmain : process_message env response s =
      (.error .oneshotClosed, { s with requests := removeA s.requests i }) := by
    simp only [process_message, hfind, hdec, hreq]
    cases request with
    | Initialize sender =>
      injection htok with htok
      subst htok
      simp [process_response, bindE, send_to_oneshot, hdead]
    | GetPlainGoals sender =>
      injection htok with htok
      subst htok
      obtain ⟨r, hr⟩ := Option.isSome_iff_exists.mp hok
      simp [process_response, hr, send_to_oneshot, hdead]
    | Hover sender =>
      injection htok with htok
      subst htok
      obtain ⟨r, hr⟩ := Option.isSome_iff_exists.mp hok
      simp [process_response, hr, send_to_oneshot, hdead]
    | TextDocumentDocumentSymbol => cases htok
    | TextDocumentDocumentCodeAction => cases htok
    | TextDocumentFoldingRange => cases htok
    | LeanRpcConnect => cases htok
  refine ⟨hmain, by rw [hmain], by rw [hmain]; exact lookupA_removeA_self s.requests i, ?_⟩
  simp [runLoop, processEvent, hmain]

/-- C1 counterexample: with the `Initialize` caller's receiver dropped, the
arriving reply does *not* leave the run loop running on the next inbound
message — the loop terminates (and the resolution attempt produced an error,
not a silent discard). -/
theorem c1_dropped_receiver_counterexample :
    isRunning (runLoop droppedEnv pendingInitState
      [SessionEvent.msg initReply, SessionEvent.msg progressNotification]) = false ∧
    (process_message droppedEnv initReply pendingInitState).1 = .error .oneshotClosed ∧
    (process_message droppedEnv initReply pendingInitState).2.resolved = [] :=
  ⟨rfl, rfl, rfl⟩

/-- C1 witness: the amended theorem applied to the concrete pending
initialize request. -/
theorem c1_dropped_receiver_terminates_loop_witness :
    process_message droppedEnv initReply pendingInitState =
      (.error .oneshotClosed, pendingRemovedState) ∧
    (process_message droppedEnv initReply pendingInitState).2.resolved =
      pendingInitState.resolved ∧
    lookupA (process_message droppedEnv initReply pendingInitState).2.requests
      (Id.ourId "ulid-0") = none ∧
    runLoop droppedEnv pendingInitState [SessionEvent.msg initReply] =
      .finished .oneshotClosed pendingRemovedState :=
  c1_dropped_receiver_terminates_loop droppedEnv pendingInitState initReply
    (Json.str "ulid-0") (Id.ourId "ulid-0") (Request.Initialize 0) 0 [] rfl rfl rfl rfl rfl
    trivial

/-- C2: dropping every clone of the session handle produces no event for the
run loop (modelled from the spec's cancellation contract), so the loop keeps
selecting: it stays running across any sequence of inbound server
notifications, and it terminates only when the subprocess side ends (the
outbound channel closes, e.g. because the subprocess exited). -/
theorem c2_handle_drop_does_not_terminate (env : Env) (s : RunnerState) (js : List Json)
    (hnotif : ∀ j ∈ js, getField j "id" = none) :
    (∃ s1, runLoop env s (js.map SessionEvent.msg) = .running s1) ∧
    (∀ rest, ∃ s2,
      runLoop env s (js.map SessionEvent.msg ++ SessionEvent.msgClosed :: rest) =
        .finished .channelClosed s2) := by
  induction js generalizing s with
  | nil => exact ⟨⟨s, rfl⟩, fun rest => ⟨s, rfl⟩⟩
  | cons j js ih =>
    have hj : getField j "id" = none := hnotif j (List.mem_cons_self j js)
    have hstep : process_message env j s = (.ok (), process_notification j s) := by
      simp [process_message, hj]
    have ih2 := ih (process_notification j s) (fun x hx => hnotif x (List.mem_cons_of_mem j hx))
    refine ⟨?_, fun rest => ?_⟩
    · obtain ⟨s1, hs1⟩ := ih2.1
      exact ⟨s1, by simp [runLoop, processEvent, hstep, hs1]⟩
    · obtain ⟨s2, hs2⟩ := ih2.2 rest
      exact ⟨s2, by simp [runLoop, processEvent, hstep, hs2]⟩

/-- C2 witness: with all handles dropped, a session keeps running across an
inbound notification, and ends only on subprocess-channel closure. -/
theorem c2_handle_drop_does_not_terminate_witness :
    (∃ s1, runLoop droppedEnv (initState "/p")
      ([progressNotification].map SessionEvent.msg) = .running s1) ∧
    (∀ rest, ∃ s2,
      runLoop droppedEnv (initState "/p")
        ([progressNotification].map SessionEvent.msg ++ SessionEvent.msgClosed :: rest) =
          .finished .channelClosed s2) :=
  c2_handle_drop_does_not_terminate droppedEnv (initState "/p") [progressNotification]
    (by intro j hj; simp at hj; subst hj; rfl)

theorem InvS_lean_server_send (env : Env) (m : Message) (s : RunnerState)
    (hm : NeutralMsg m) (h : InvS s) : InvS (lean_server_send env m s).2 := by
  cases hc : env.sendOk s.sendCount with
  | false => simp only [lean_server_send, hc, Bool.false_eq_true, if_false]; exact h
  | true => simp only [lean_server_send, hc, if_true]; exact InvT_append_neutral _ _ _ hm h

theorem InvS_send_request (env : Env) (m : Message) (req : Request) (s : RunnerState)
    (hm : NeutralMsg m) (h : InvS s) : InvS (send_request env m req s).2 := by
  cases hid : m.id with
  | none => simp only [send_request, hid]; exact InvS_lean_server_send env m s hm h
  | some i =>
    simp only [send_request, hid]
    exact InvS_lean_server_send env m _ hm h

theorem InvS_send_to_oneshot (env : Env) (tok : Nat) (s : RunnerState)
    (h : InvS s) : InvS (send_to_oneshot env tok s).2 := by
  cases hc : env.receiverAlive tok with
  | false => simp only [send_to_oneshot, hc, Bool.false_eq_true, if_false]; exact h
  | true => simp only [send_to_oneshot, hc, if_true]; exact h

theorem InvS_open_file (env : Env) (fp : String) (s : RunnerState)
    (h : InvS s) : InvS (open_file env fp s).2 := by
  by_cases h1 : (lookupA s.openFileVersions fp).isSome = true
  · simp only [open_file, h1, if_true]
    exact h
  · have hnone : lookupA s.openFileVersions fp = none := by
      rcases hl : lookupA s.openFileVersions fp with _ | v
      · rfl
      · rw [hl] at h1; exact absurd rfl h1
    rw [Bool.not_eq_true] at h1
    cases hread : env.fileText fp with
    | none => simp only [open_file, h1, Bool.false_eq_true, if_false, hread]; exact h
    | some text =>
      cases hc0 : env.sendOk s.sendCount with
      | false =>
        simp only [open_file, h1, Bool.false_eq_true, if_false, hread, mintId,
          lean_server_send, bindE, hc0]
        exact h
      | true =>
        cases hc1 : env.sendOk (s.sendCount + 1) with
        | false =>
          simp only [open_file, h1, Bool.false_eq_true, if_false, hread, mintId,
            lean_server_send, bindE, send_request, text_document_did_open_notification,
            text_document_document_symbol_request, text_document_document_code_action_request,
            text_document_folding_range_request, lean_rpc_connect_request, hc0, hc1, if_true]
          exact InvT_append_didOpen _ _ fp text hnone h
        | true =>
          cases hc2 : env.sendOk (s.sendCount + 1 + 1) with
          | false =>
            simp only [open_file, h1, Bool.false_eq_true, if_false, hread, mintId,
              lean_server_send, bindE, send_request, text_document_did_open_notification,
            text_document_document_symbol_request, text_document_document_code_action_request,
            text_document_folding_range_request, lean_rpc_connect_request, hc0, hc1, hc2, if_true]
            exact InvT_append_neutral _ _ _ (neutral_document_symbol _ _)
              (InvT_append_didOpen _ _ fp text hnone h)
          | true =>
            cases hc3 : env.sendOk (s.sendCount + 1 + 1 + 1) with
            | false =>
              simp only [open_file, h1, Bool.false_eq_true, if_false, hread, mintId,
                lean_server_send, bindE, send_request, text_document_did_open_notification,
            text_document_document_symbol_request, text_document_document_code_action_request,
            text_document_folding_range_request, lean_rpc_connect_request, hc0, hc1, hc2, hc3, if_true]
              exact InvT_append_neutral _ _ _ (neutral_code_action _ _)
                (InvT_append_neutral _ _ _ (neutral_document_symbol _ _)
                  (InvT_append_didOpen _ _ fp text hnone h))
            | true =>
              cases hc4 : env.sendOk (s.sendCount + 1 + 1 + 1 + 1) with
              | false =>
                simp only [open_file, h1, Bool.false_eq_true, if_false, hread, mintId,
                  lean_server_send, bindE, send_request, text_document_did_open_notification,
            text_document_document_symbol_request, text_document_document_code_action_request,
            text_document_folding_range_request, lean_rpc_connect_request, hc0, hc1, hc2, hc3, hc4, if_true]
                exact InvT_append_neutral _ _ _ (neutral_folding_range _ _)
                  (InvT_append_neutral _ _ _ (neutral_code_action _ _)
                    (InvT_append_neutral _ _ _ (neutral_document_symbol _ _)
                      (InvT_append_didOpen _ _ fp text hnone h)))
              | true =>
                simp only [open_file, h1, Bool.false_eq_true, if_false, hread, mintId,
                  lean_server_send, bindE, send_request, text_document_did_open_notification,
            text_document_document_symbol_request, text_document_document_code_action_request,
            text_document_folding_range_request, lean_rpc_connect_request, hc0, hc1, hc2, hc3, hc4, if_true]
                have ht : InvT s.openFileVersions
                    (((((s.sent ++ [text_document_did_open_notification text (toUri fp)]) ++
                      [text_document_document_symbol_request (toUri fp)
                        (Id.ourId ("ulid-" ++ Nat.repr s.nextUlid))]) ++
                      [text_document_document_code_action_request (toUri fp)
                        (Id.ourId ("ulid-" ++ Nat.repr (s.nextUlid + 1)))]) ++
                      [text_document_folding_range_request (toUri fp)
                        (Id.ourId ("ulid-" ++ Nat.repr (s.nextUlid + 1 + 1)))]) ++
                      [lean_rpc_connect_request (toUri fp)
                        (Id.ourId ("ulid-" ++ Nat.repr (s.nextUlid + 1 + 1 + 1)))]) :=
                  InvT_append_neutral _ _ _ (neutral_rpc_connect _ _)
                    (InvT_append_neutral _ _ _ (neutral_folding_range _ _)
                      (InvT_append_neutral _ _ _ (neutral_code_action _ _)
                        (InvT_append_neutral _ _ _ (neutral_document_symbol _ _)
                          (InvT_append_didOpen _ _ fp text hnone h))))
                have hso : sinceOpen fp
                    (((((s.sent ++ [text_document_did_open_notification text (toUri fp)]) ++
                      [text_document_document_symbol_request (toUri fp)
                        (Id.ourId ("ulid-" ++ Nat.repr s.nextUlid))]) ++
                      [text_document_document_code_action_request (toUri fp)
                        (Id.ourId ("ulid-" ++ Nat.repr (s.nextUlid + 1)))]) ++
                      [text_document_folding_range_request (toUri fp)
                        (Id.ourId ("ulid-" ++ Nat.repr (s.nextUlid + 1 + 1)))]) ++
                      [lean_rpc_connect_request (toUri fp)
                        (Id.ourId ("ulid-" ++ Nat.repr (s.nextUlid + 1 + 1 + 1)))]) =
                    some [] := by
                  rw [sinceOpen_append_other _ _ _ ((neutral_rpc_connect _ _).1 fp).1
                      ((neutral_rpc_connect _ _).1 fp).2,
                    sinceOpen_append_other _ _ _ ((neutral_folding_range _ _).1 fp).1
                      ((neutral_folding_range _ _).1 fp).2,
                    sinceOpen_append_other _ _ _ ((neutral_code_action _ _).1 fp).1
                      ((neutral_code_action _ _).1 fp).2,
                    sinceOpen_append_other _ _ _ ((neutral_document_symbol _ _).1 fp).1
                      ((neutral_document_symbol _ _).1 fp).2,
                    sinceOpen_append_didOpen _ _ _ (isDidOpenFor_didOpen_self fp text)]
                exact InvT_insert_zero _ _ _ hso ht

theorem bindE_pred (P : RunnerState → Prop) (r : Except Err Unit × RunnerState)
    (f : RunnerState → Except Err Unit × RunnerState)
    (hr : P r.2) (hf : ∀ s, P s → P (f s).2) : P (bindE r f).2 := by
  rcases r with ⟨res, s⟩
  cases res with
  | ok _ => exact hf s hr
  | error e => exact hr

theorem InvS_change_file (env : Env) (fp text : String) (s : RunnerState)
    (h : InvS s) : InvS (change_file env fp text s).2 := by
  cases hl : lookupA s.openFileVersions fp with
  | none => simp only [change_file, hl]; exact h
  | some v =>
    cases hc : env.sendOk s.sendCount with
    | false =>
      simp only [change_file, hl, lean_server_send, bindE, hc, Bool.false_eq_true, if_false]
      exact h
    | true =>
      simp only [change_file, hl, lean_server_send, bindE, hc, if_true]
      exact InvT_change _ _ fp text v hl h

theorem InvS_close_file (env : Env) (fp : String) (s : RunnerState)
    (h : InvS s) : InvS (close_file env fp s).2 := by
  by_cases h1 : (lookupA s.openFileVersions fp).isSome = true
  · cases hc : env.sendOk s.sendCount with
    | false =>
      simp only [close_file, h1, if_true, lean_server_send, bindE, hc,
        Bool.false_eq_true, if_false]
      exact h
    | true =>
      simp only [close_file, h1, if_true, lean_server_send, bindE, hc]
      exact InvT_remove _ _ fp (InvT_append_neutral _ _ _ (neutral_didClose _) h)
  · rw [Bool.not_eq_true] at h1
    simp only [close_file, h1, Bool.false_eq_true, if_false]
    exact h

theorem InvS_initialize_cmd (env : Env) (sender : Nat) (s : RunnerState)
    (h : InvS s) : InvS (initialize_cmd env sender s).2 := by
  simp only [initialize_cmd, mintId]
  exact InvS_send_request env _ _ _ (neutral_initialize_request _ _) h

theorem InvS_hover_file (env : Env) (sender : Nat) (loc : Location) (s : RunnerState)
    (h : InvS s) : InvS (hover_file env sender loc s).2 := by
  simp only [hover_file, mintId]
  exact InvS_send_request env _ _ _ (neutral_hover _ _ _ _) h

theorem InvS_get_plain_goals (env : Env) (sender : Nat) (loc : Location) (s : RunnerState)
    (h : InvS s) : InvS (get_plain_goals env sender loc s).2 := by
  simp only [get_plain_goals, mintId]
  exact InvS_send_request env _ _ _ (neutral_plain_goals _ _ _ _) h

theorem InvS_process_response (env : Env) (req : Request) (resp : Json) (s : RunnerState)
    (h : InvS s) : InvS (process_response env req resp s).2 := by
  cases req with
  | Initialize sender =>
    simp only [process_response]
    apply bindE_pred InvS
    · exact InvS_send_to_oneshot env sender s h
    · intro s2 h2
      exact InvS_lean_server_send env _ s2 neutral_initialized h2
  | GetPlainGoals sender =>
    cases hd : decodeGetPlainGoalsResponse resp with
    | none => simp only [process_response, hd]; exact h
    | some r =>
      simp only [process_response, hd]
      exact InvS_send_to_oneshot env sender s h
  | Hover sender =>
    cases hd : getField resp "result" with
    | none => simp only [process_response, hd]; exact h
    | some r =>
      simp only [process_response, hd]
      exact InvS_send_to_oneshot env sender s h
  | TextDocumentDocumentSymbol => exact h
  | TextDocumentDocumentCodeAction => exact h
  | TextDocumentFoldingRange => exact h
  | LeanRpcConnect => exact h

theorem InvS_process_message (env : Env) (j : Json) (s : RunnerState)
    (h : InvS s) : InvS (process_message env j s).2 := by
  cases hid : getField j "id" with
  | none => simp only [process_message, hid]; exact h
  | some idJson =>
    cases hdec : decodeId idJson with
    | none => simp only [process_message, hid, hdec]; exact h
    | some i =>
      cases hreq : lookupA s.requests i with
      | none => simp only [process_message, hid, hdec, hreq]; exact h
      | some req =>
        simp only [process_message, hid, hdec, hreq]
        exact InvS_process_response env req j _ h

theorem InvS_process_command (env : Env) (c : SessionCommand) (s : RunnerState)
    (h : InvS s) : InvS (process_command env c s).2 := by
  cases c with
  | Initialize sender => exact InvS_initialize_cmd env sender s h
  | OpenFile sender fp =>
    exact InvS_send_to_oneshot env sender _ (InvS_open_file env fp s h)
  | ChangeFile sender fp text =>
    exact InvS_send_to_oneshot env sender _ (InvS_change_file env fp text s h)
  | CloseFile sender fp =>
    exact InvS_send_to_oneshot env sender _ (InvS_close_file env fp s h)
  | HoverFile sender loc => exact InvS_hover_file env sender loc s h
  | GetPlainGoals sender loc => exact InvS_get_plain_goals env sender loc s h
  | GetStatus sender => exact InvS_send_to_oneshot env sender s h

theorem InvS_processEvent (env : Env) (e : SessionEvent) (s : RunnerState)
    (h : InvS s) : InvS (processEvent env e s).2 := by
  cases e with
  | cmd c => exact InvS_process_command env c s h
  | msg j => exact InvS_process_message env j s h
  | msgClosed => exact h

theorem InvS_runLoop (env : Env) (evs : List SessionEvent) :
    ∀ s, InvS s → InvS (stateOf (runLoop env s evs)) := by
  induction evs with
  | nil => intro s h; exact h
  | cons e rest ih =>
    intro s h
    have hstep := InvS_processEvent env e s h
    rcases hpe : processEvent env e s with ⟨res, s1⟩
    rw [hpe] at hstep
    cases res with
    | ok _ =>
      simp only [runLoop, hpe]
      exact ih s1 hstep
    | error err =>
      simp only [runLoop, hpe, stateOf]
      exact hstep

theorem InvS_initState (p : String) : InvS (initState p) :=
  ⟨fun _ => ⟨fun _ hv => Option.noConfusion hv, Or.inl rfl⟩,
   fun m hm _ => absurd hm (List.not_mem_nil m)⟩

/-- C4: starting from a fresh session, after any trace of processed events
(commands and inbound messages, under any channel/oneshot/file environment),
for every file `F`: every `didOpen` sent for any file carries version 0; the
`didChange` versions for `F` since its latest `didOpen` form exactly the
sequence `1, 2, ..., k` for some `k` (strictly increasing by 1, starting at
1) whenever such an epoch exists; and when `F` is open with stored version
`v` that sequence is exactly `1, ..., v` -- so the counter is bumped exactly
once per successfully sent `didChange` (a failed send leaves both the trace
and the counter untouched).  Every epoch of a trace arises as the latest
epoch of the state reached by a prefix of the events, which this theorem
covers by quantifying over all traces. -/
theorem c4_version_monotonicity (env : Env) (p : String) (evs : List SessionEvent) (F : String) :
    (∀ v, lookupA (stateOf (runLoop env (initState p) evs)).openFileVersions F = some v →
      sinceOpen F (stateOf (runLoop env (initState p) evs)).sent = some (versionsUpTo v)) ∧
    (sinceOpen F (stateOf (runLoop env (initState p) evs)).sent = none ∨
      ∃ k, sinceOpen F (stateOf (runLoop env (initState p) evs)).sent =
        some (versionsUpTo k)) ∧
    (∀ m ∈ (stateOf (runLoop env (initState p) evs)).sent,
      m.method = "textDocument/didOpen" → versionOf m = some 0) := by
  have h := InvS_runLoop env evs (initState p) (InvS_initState p)
  exact ⟨(h.1 F).1, (h.1 F).2, h.2⟩

/-- C4 witness: after opening `/a.lean` and changing it once, the stored
version is 1 and the epoch version sequence is exactly `[1]`. -/
theorem c4_version_monotonicity_witness :
    sinceOpen "/a.lean" (stateOf (runLoop happyEnv (initState "/p") c4evs)).sent =
      some (versionsUpTo 1) :=
  (c4_version_monotonicity happyEnv "/p" c4evs "/a.lean").1 1 rfl

/-- C9: resolving with no session id succeeds — returning the unique session
— exactly when the dictionary has size 1, and fails with the
ambiguous-session error whenever the size differs from 1; resolving with an
explicit id returns the session stored under that id, or fails with the
unknown-session error when the id is absent. -/
theorem c9_get_session_resolution (sessions : List (Nat × Session)) :
    ((∃ s, get_session sessions none = .ok s) ↔ sessions.length = 1) ∧
    (∀ k s, sessions = [(k, s)] → get_session sessions none = .ok s) ∧
    (sessions.length ≠ 1 → get_session sessions none = .error .ambiguousSession) ∧
    (∀ sid s, lookupA sessions sid = some s → get_session sessions (some sid) = .ok s) ∧
    (∀ sid, lookupA sessions sid = none →
      get_session sessions (some sid) = .error .unknownSession) := by
  refine ⟨⟨?_, ?_⟩, ?_, ?_, ?_, ?_⟩
  · rintro ⟨s, hs⟩
    by_cases h : sessions.length = 1
    · exact h
    · simp [get_session, h] at hs
  · intro h
    obtain ⟨kv, hkv⟩ := List.length_eq_one.mp h
    subst hkv
    exact ⟨kv.2, by simp [get_session]⟩
  · intro k s hs
    subst hs
    simp [get_session]
  · intro h
    simp [get_session, h]
  · intro sid s hs
    simp [get_session, hs]
  · intro sid hs
    simp [get_session, hs]

/-- C9 witness: a one-session dictionary resolves implicitly; a two-session
dictionary is ambiguous; an absent explicit id is unknown. -/
theorem c9_get_session_resolution_witness :
    get_session [(7, Session.mk 7)] none = .ok (Session.mk 7) ∧
    get_session [(7, Session.mk 7), (8, Session.mk 8)] none = .error .ambiguousSession ∧
    get_session [(7, Session.mk 7)] (some 9) = .error .unknownSession :=
  ⟨(c9_get_session_resolution [(7, Session.mk 7)]).2.1 7 (Session.mk 7) rfl,
   (c9_get_session_resolution [(7, Session.mk 7), (8, Session.mk 8)]).2.2.1 (by decide),
   (c9_get_session_resolution [(7, Session.mk 7)]).2.2.2.2 9 rfl⟩

/-- C10: once every `SessionSetClient` is dropped and the queued commands
(and any interleaved join-set events) have been processed, the session-set
run loop observes the closed command channel and returns cleanly with
`Ok(())` — however many session run tasks are still in flight, and whatever
the state of the dictionary. -/
theorem c10_session_set_clean_shutdown (env : SetEnv) (s : SetState)
    (pre post : List SetEvent) (hpre : SetEvent.cmdClosed ∉ pre) :
    ∃ s1, sessionSetRun env s (pre ++ SetEvent.cmdClosed :: post) = .finishedOk s1 := by
  induction pre generalizing s with
  | nil => exact ⟨s, rfl⟩
  | cons e rest ih =>
    have hne : e ≠ SetEvent.cmdClosed := fun h => hpre (h ▸ List.mem_cons_self e rest)
    have hrest : SetEvent.cmdClosed ∉ rest := fun h => hpre (List.mem_cons_of_mem e h)
    cases e with
    | cmd c => exact ih (processSetCommand env c s) hrest
    | cmdClosed => exact absurd rfl hne
    | taskDone sid => exact ih (cleanup_session sid s) hrest
    | joinFailed => exact ih s hrest
    | joinEmpty => exact ih s hrest

/-- C10 witness: a queue holding a command, a task completion and an empty
join-set poll, followed by channel closure, ends the loop cleanly. -/
theorem c10_session_set_clean_shutdown_witness :
    ∃ s1, sessionSetRun ⟨[], fun _ => true⟩ ⟨[], 0, []⟩
      ([SetEvent.cmd (SessionSetCommand.GetSessions 0), SetEvent.taskDone 5,
        SetEvent.joinEmpty] ++ SetEvent.cmdClosed :: []) = .finishedOk s1 :=
  c10_session_set_clean_shutdown ⟨[], fun _ => true⟩ ⟨[], 0, []⟩
    [SetEvent.cmd (SessionSetCommand.GetSessions 0), SetEvent.taskDone 5, SetEvent.joinEmpty]
    [] (by decide)

/-- C5 witness: the theorem applied to a fresh session (nothing open) and to
a session with `/x.lean` open. -/
theorem c5_rejected_commands_no_effect_witness :
    (change_file happyEnv "/y.lean" "t" (initState "/p") =
        (.error .fileNotOpen, initState "/p") ∧
      close_file happyEnv "/y.lean" (initState "/p") =
        (.error .fileNotOpen, initState "/p")) ∧
    open_file happyEnv "/x.lean" openXState = (.error .alreadyOpen, openXState) :=
  ⟨(c5_rejected_commands_no_effect happyEnv (initState "/p") "/y.lean" "t").1 rfl,
   (c5_rejected_commands_no_effect happyEnv openXState "/x.lean" "t").2 3 rfl⟩

end LeanLsp

